import Mathlib

/-!
# Campus Drive: store, write handlers, reports and seed script

A shallow embedding of `src/models.js`, `src/routes.js` and `src/seed.js`.

* The database is a record of five tables (lists of rows, in insertion order).
* `Model.create` is a function `Store → row → Except DbError Store` that applies the
  validators and the constraints declared in `models.js` (primary keys, unique
  indexes, and the foreign keys declared by the associations).
* A value produced by `genUUID` is an explicit argument of the operation that draws it.
* JavaScript numbers are IEEE-754 binary64 values.  They are represented by the
  rational they denote, and every arithmetic operation rounds its exact result to
  the nearest representable value, ties to even (`roundDouble`).  The exponent range
  is not bounded: all magnitudes that occur here (counts below `2 ^ 53`, quotients of
  such counts, percentages) lie in the normal range of binary64.
* A report handler awaits its aggregate query and then one `findByPk` per row.  The
  reports `attendancePercent`, ... read one state throughout; the variants
  `attendancePercentAt`, ... let the lookup of each row read a state of its own, as
  happens when another request writes in between.
* The order in which SQL returns the groups of a `GROUP BY`, and the order of rows
  that tie under `ORDER BY`, is not fixed by SQL.  The embedding fixes one order
  (groups by first occurrence from the end of the table as computed by `List.dedup`,
  sorting by insertion sort); no theorem below depends on how ties are broken.
-/

namespace CampusDrive

/-! ## Data model (`src/models.js`) -/

/-- Row of table `Colleges`. -/
structure College where
  id : String
  name : String
  domain : Option String
deriving DecidableEq, Repr

/-- Row of table `Students`; `name` and `email` are nullable. -/
structure Student where
  id : String
  studentRoll : String
  name : Option String
  email : Option String
  collegeId : String
deriving DecidableEq, Repr

/-- Row of table `Events`.  The columns `description`, `type`, `startTime`, `endTime`,
`location` and `eventCode` carry no constraint and are read by no handler modelled
here; `state` is nullable with default `"draft"`. -/
structure Event where
  id : String
  collegeId : String
  title : String
  state : Option String
deriving DecidableEq, Repr

/-- Row of table `Registrations`; `attendanceStatus` is nullable with default
`"registered"`. -/
structure Registration where
  id : String
  eventId : String
  studentId : String
  collegeId : String
  attendanceStatus : Option String
deriving DecidableEq, Repr

/-- Row of table `Feedbacks`; `rating` is an INTEGER column. -/
structure Feedback where
  id : String
  eventId : String
  studentId : String
  collegeId : String
  rating : Int
  comments : Option String
deriving DecidableEq, Repr

/-- The database: one list of rows per table, oldest row first. -/
structure Store where
  colleges : List College
  students : List Student
  events : List Event
  registrations : List Registration
  feedbacks : List Feedback
deriving DecidableEq, Repr

/-- State of the database after `sequelize.sync({ force: true })`. -/
def Store.empty : Store := ⟨[], [], [], [], []⟩

/-- The errors a `create` can throw, by `err.name`. -/
inductive DbError where
  | validationError
  | uniqueConstraintError
  | foreignKeyConstraintError
deriving DecidableEq, Repr

/-- JavaScript truthiness of a value that is a string or `undefined`. -/
def truthy : Option String → Bool
  | some v => decide (v ≠ "")
  | none => false

/-! ## Lookups -/

/-- Model of `Event.findByPk(id)`. -/
def Event.findByPk (s : Store) (id : String) : Option Event :=
  s.events.find? (fun e => decide (e.id = id))

/-- Model of `Student.findByPk(id)`. -/
def Student.findByPk (s : Store) (id : String) : Option Student :=
  s.students.find? (fun st => decide (st.id = id))

/-- Model of `Student.findOne({ where: { studentRoll, collegeId } })`. -/
def Student.findOne (s : Store) (studentRoll collegeId : String) : Option Student :=
  s.students.find? (fun st => decide (st.studentRoll = studentRoll ∧ st.collegeId = collegeId))

/-! ## Inserts under the declared constraints -/

/-- The values allowed by the `isIn` validator of `Event.state`. -/
def eventStates : List String := ["draft", "published", "cancelled", "completed"]

/-- The values allowed by the `isIn` validator of `Registration.attendanceStatus`. -/
def attendanceStatuses : List String := ["registered", "present", "absent", "late"]

/-- Insert into `Colleges`: primary key. -/
def Store.insertCollege (s : Store) (c : College) : Except DbError Store :=
  if s.colleges.any (fun x => decide (x.id = c.id)) then .error .uniqueConstraintError
  else .ok { s with colleges := s.colleges ++ [c] }

/-- Insert into `Students`: primary key, unique index `(studentRoll, collegeId)`,
foreign key `collegeId`. -/
def Store.insertStudent (s : Store) (st : Student) : Except DbError Store :=
  if s.students.any (fun x => decide (x.id = st.id)) then .error .uniqueConstraintError
  else if s.students.any
      (fun x => decide (x.studentRoll = st.studentRoll ∧ x.collegeId = st.collegeId)) then
    .error .uniqueConstraintError
  else if ¬ s.colleges.any (fun c => decide (c.id = st.collegeId)) then
    .error .foreignKeyConstraintError
  else .ok { s with students := s.students ++ [st] }

/-- Insert into `Events`: primary key, foreign key `collegeId`. -/
def Store.insertEvent (s : Store) (e : Event) : Except DbError Store :=
  if s.events.any (fun x => decide (x.id = e.id)) then .error .uniqueConstraintError
  else if ¬ s.colleges.any (fun c => decide (c.id = e.collegeId)) then
    .error .foreignKeyConstraintError
  else .ok { s with events := s.events ++ [e] }

/-- Insert into `Registrations`: primary key, unique index `(eventId, studentId)`,
foreign keys `eventId`, `studentId`, `collegeId`. -/
def Store.insertRegistration (s : Store) (r : Registration) : Except DbError Store :=
  if s.registrations.any (fun x => decide (x.id = r.id)) then .error .uniqueConstraintError
  else if s.registrations.any
      (fun x => decide (x.eventId = r.eventId ∧ x.studentId = r.studentId)) then
    .error .uniqueConstraintError
  else if ¬ (s.events.any (fun e => decide (e.id = r.eventId))
      ∧ s.students.any (fun st => decide (st.id = r.studentId))
      ∧ s.colleges.any (fun c => decide (c.id = r.collegeId))) then
    .error .foreignKeyConstraintError
  else .ok { s with registrations := s.registrations ++ [r] }

/-- Insert into `Feedbacks`: primary key, foreign keys `eventId`, `studentId`,
`collegeId`. -/
def Store.insertFeedback (s : Store) (f : Feedback) : Except DbError Store :=
  if s.feedbacks.any (fun x => decide (x.id = f.id)) then .error .uniqueConstraintError
  else if ¬ (s.events.any (fun e => decide (e.id = f.eventId))
      ∧ s.students.any (fun st => decide (st.id = f.studentId))
      ∧ s.colleges.any (fun c => decide (c.id = f.collegeId))) then
    .error .foreignKeyConstraintError
  else .ok { s with feedbacks := s.feedbacks ++ [f] }

/-- Model of `College.create`. -/
def College.create (s : Store) (c : College) : Except DbError Store :=
  s.insertCollege c

/-- Model of `Event.create`: the `isIn` validator runs on a non-null `state`. -/
def Event.create (s : Store) (e : Event) : Except DbError Store :=
  match e.state with
  | some v => if v ∈ eventStates then s.insertEvent e else .error .validationError
  | none => s.insertEvent e

/-- Model of `Student.create`: the `isEmail` validator (from the validation library,
taken as a parameter) runs on a non-null `email`. -/
def Student.create (isEmail : String → Bool) (s : Store) (st : Student) :
    Except DbError Store :=
  match st.email with
  | some v => if isEmail v then s.insertStudent st else .error .validationError
  | none => s.insertStudent st

/-- Model of `Registration.create`: the `isIn` validator runs on a non-null
`attendanceStatus`. -/
def Registration.create (s : Store) (r : Registration) : Except DbError Store :=
  match r.attendanceStatus with
  | some v => if v ∈ attendanceStatuses then s.insertRegistration r else .error .validationError
  | none => s.insertRegistration r

/-- Model of `Feedback.create`: validators `min: 1`, `max: 5` on `rating`. -/
def Feedback.create (s : Store) (f : Feedback) : Except DbError Store :=
  if 1 ≤ f.rating ∧ f.rating ≤ 5 then s.insertFeedback f else .error .validationError

/-- Model of `Student.bulkCreate`: one statement, no validators, all rows or none. -/
def Student.bulkCreate (s : Store) (sts : List Student) : Except DbError Store :=
  sts.foldlM (fun acc st => acc.insertStudent st) s

/-- Model of `Feedback.bulkCreate`: one statement, no validators, all rows or none. -/
def Feedback.bulkCreate (s : Store) (fs : List Feedback) : Except DbError Store :=
  fs.foldlM (fun acc f => acc.insertFeedback f) s

/-! ## Write handlers (`src/routes.js`, `POST /register` and `POST /feedback`) -/

/-- The `error` member of an error response: a fixed text or the message of a
thrown error. -/
inductive ErrorBody where
  | text (msg : String)
  | thrown (e : DbError)
deriving DecidableEq, Repr

/-- An HTTP response: a status with a JSON record, or a status with an error body. -/
inductive Reply (α : Type) where
  | json (status : Nat) (body : α)
  | error (status : Nat) (body : ErrorBody)
deriving DecidableEq, Repr

/-- Status code of a response. -/
def Reply.status {α : Type} : Reply α → Nat
  | .json c _ => c
  | .error c _ => c

/-- Body of `POST /register`; a member that is absent is `none`. -/
structure RegisterBody where
  eventId : Option String
  studentRoll : Option String
  name : Option String
  email : Option String
  collegeId : Option String
deriving DecidableEq, Repr

/-- The `catch` block of `POST /register`. -/
def registerCatch (e : DbError) : Reply Registration :=
  if e = .uniqueConstraintError then .error 409 (.text "Already registered")
  else .error 400 (.thrown e)

/-- Model of `POST /register`.  `studentUuid` and `regUuid` are the values `genUUID`
returns if a Student, respectively a Registration, is built.  Writes are not wrapped
in a transaction: a Student created before a failing `Registration.create` stays. -/
def register (isEmail : String → Bool) (s : Store) (body : RegisterBody)
    (studentUuid regUuid : String) : Reply Registration × Store :=
  if ¬ (truthy body.eventId ∧ truthy body.studentRoll ∧ truthy body.collegeId) then
    (.error 400 (.text "eventId, studentRoll, collegeId required"), s)
  else
    let eventId := body.eventId.getD ""
    let studentRoll := body.studentRoll.getD ""
    let collegeId := body.collegeId.getD ""
    match Event.findByPk s eventId with
    | none => (.error 400 (.text "Event not found or not published"), s)
    | some event =>
      if event.state ≠ some "published" then
        (.error 400 (.text "Event not found or not published"), s)
      else
        let found : Except DbError (Student × Store) :=
          match Student.findOne s studentRoll collegeId with
          | some st => .ok (st, s)
          | none =>
            let st : Student :=
              { id := studentUuid, studentRoll := studentRoll, name := body.name,
                email := body.email, collegeId := collegeId }
            (Student.create isEmail s st).map (fun s1 => (st, s1))
        match found with
        | .error e => (registerCatch e, s)
        | .ok (student, s1) =>
          let reg : Registration :=
            { id := regUuid, eventId := eventId, studentId := student.id,
              collegeId := collegeId, attendanceStatus := some "registered" }
          match Registration.create s1 reg with
          | .error e => (registerCatch e, s1)
          | .ok s2 => (.json 201 reg, s2)

/-- Body of `POST /feedback`; `rating` is `none` when the member is `undefined`. -/
structure FeedbackBody where
  eventId : Option String
  studentRoll : Option String
  collegeId : Option String
  rating : Option Int
  comments : Option String
deriving DecidableEq, Repr

/-- Model of `POST /feedback`; `uuid` is the value `genUUID` returns for the new row. -/
def postFeedback (s : Store) (body : FeedbackBody) (uuid : String) :
    Reply Feedback × Store :=
  match body.rating with
  | none => (.error 400 (.text "eventId, studentRoll, collegeId, rating required"), s)
  | some rating =>
    if ¬ (truthy body.eventId ∧ truthy body.studentRoll ∧ truthy body.collegeId) then
      (.error 400 (.text "eventId, studentRoll, collegeId, rating required"), s)
    else
      let eventId := body.eventId.getD ""
      let studentRoll := body.studentRoll.getD ""
      let collegeId := body.collegeId.getD ""
      match Student.findOne s studentRoll collegeId with
      | none => (.error 404 (.text "Student not found"), s)
      | some student =>
        let fb : Feedback :=
          { id := uuid, eventId := eventId, studentId := student.id,
            collegeId := collegeId, rating := rating, comments := body.comments }
        match Feedback.create s fb with
        | .error e => (.error 400 (.thrown e), s)
        | .ok s1 => (.json 201 fb, s1)

/-! ## JavaScript numbers -/

/-- Nearest integer, ties to the even one. -/
def roundHalfEven (x : ℚ) : ℤ :=
  if x - ⌊x⌋ < 1 / 2 then ⌊x⌋
  else if 1 / 2 < x - ⌊x⌋ then ⌊x⌋ + 1
  else if ⌊x⌋ % 2 = 0 then ⌊x⌋ else ⌊x⌋ + 1

/-- Exponent of the last place of the binary64 significand of `q`: the `e` with
`2 ^ 52 * 2 ^ e ≤ |q| < 2 ^ 53 * 2 ^ e`. -/
def binExp (q : ℚ) : ℤ := Int.log 2 |q| - 52

/-- The binary64 value nearest to `q`, ties to even (53-bit significand). -/
def roundDouble (q : ℚ) : ℚ :=
  if q = 0 then 0
  else (roundHalfEven (q / (2 : ℚ) ^ binExp q) : ℚ) * (2 : ℚ) ^ binExp q

/-- The rational `a` is a binary64 value: an integer below `2 ^ 53` in magnitude times
a power of two. -/
def IsDouble (a : ℚ) : Prop := ∃ m e : ℤ, |m| < 2 ^ 53 ∧ a = (m : ℚ) * (2 : ℚ) ^ e

/-- Model of `Math.round`: the nearest integer, a tie going towards `+∞`. -/
def jsRound (x : ℚ) : ℤ := ⌊x + 1 / 2⌋

/-- The expression of `routes.js` lines 238-240:
`total ? Math.round((present / total) * 10000) / 100 : 0`. -/
def attendancePercentOf (presentCount totalRegistered : Nat) : ℚ :=
  if totalRegistered ≠ 0 then
    roundDouble
      ((jsRound (roundDouble
        (roundDouble ((presentCount : ℚ) / (totalRegistered : ℚ)) * 10000)) : ℚ) / 100)
  else 0

/-- The expression of `routes.js` line 263, `Math.round(avg * 100) / 100`, applied to
the value of SQL `AVG(rating)`, which is the sum of the ratings (exact below `2 ^ 53`)
divided by their number in double precision. -/
def avgRatingOf (ratings : List Int) : ℚ :=
  roundDouble
    ((jsRound (roundDouble
      (roundDouble ((ratings.sum : ℚ) / (ratings.length : ℚ)) * 100)) : ℚ) / 100)

/-- Follows the spec's words: the exact rational `x` rounded half-up to 2 decimal
places. -/
def roundHalfUp2 (x : ℚ) : ℚ := (⌊x * 100 + 1 / 2⌋ : ℚ) / 100

/-- Follows the spec's words: `presentCount / totalRegistered * 100` as an exact
rational, rounded half-up to 2 decimal places, or `0` when `totalRegistered = 0`. -/
def specAttendancePercent (presentCount totalRegistered : Nat) : ℚ :=
  if totalRegistered = 0 then 0
  else roundHalfUp2 ((presentCount : ℚ) / (totalRegistered : ℚ) * 100)

/-! ## Reports (`src/routes.js`, `GET /reports/...`) -/

/-- The keys of `GROUP BY key`: each key value once. -/
def groupKeys {α : Type} (key : α → String) (rows : List α) : List String :=
  (rows.map key).dedup

/-- Row of `event-popularity`. -/
structure PopularityRow where
  eventId : String
  title : Option String
  registrations : Nat
deriving DecidableEq, Repr

/-- The rows of `Registrations r JOIN Events e ON r.eventId = e.id`. -/
def joinEvents (s : Store) : List (Registration × Event) :=
  s.registrations.flatMap
    (fun r => (s.events.filter (fun e => decide (r.eventId = e.id))).map (fun e => (r, e)))

/-- Model of `GET /reports/event-popularity`. -/
def eventPopularity (s : Store) (collegeId : Option String) : List PopularityRow :=
  let rows := (joinEvents s).filter
    (fun p => !truthy collegeId || decide (some p.1.collegeId = collegeId))
  let groups := (groupKeys (fun p => p.1.eventId) rows).map (fun k =>
    let g := rows.filter (fun p => decide (p.1.eventId = k))
    ({ eventId := k, title := g.head?.map (fun p => p.2.title),
       registrations := g.length } : PopularityRow))
  groups.insertionSort (fun a b => b.registrations ≤ a.registrations)

/-- Row of `attendance-percent`. -/
structure AttendanceRow where
  eventId : String
  totalRegistered : Nat
  presentCount : Nat
  title : Option String
  attendancePercent : ℚ
deriving DecidableEq, Repr

/-- The `WHERE` clause of `attendance-percent`. -/
def attendanceFilter (collegeId eventId : Option String) (r : Registration) : Bool :=
  (!truthy collegeId || decide (some r.collegeId = collegeId))
    && (!truthy eventId || decide (some r.eventId = eventId))

/-- Model of `GET /reports/attendance-percent`. -/
def attendancePercent (s : Store) (collegeId eventId : Option String) : List AttendanceRow :=
  let rows := s.registrations.filter (attendanceFilter collegeId eventId)
  (groupKeys (fun r => r.eventId) rows).map (fun k =>
    let g := rows.filter (fun r => decide (r.eventId = k))
    let total := g.length
    let present := g.countP (fun r => decide (r.attendanceStatus = some "present"))
    ({ eventId := k, totalRegistered := total, presentCount := present,
       title := (Event.findByPk s k).map (fun e => e.title),
       attendancePercent := attendancePercentOf present total } : AttendanceRow))

/-- Row of `avg-feedback`. -/
structure FeedbackRow where
  eventId : String
  avgRating : ℚ
  feedbackCount : Nat
  title : Option String
deriving DecidableEq, Repr

/-- Model of `GET /reports/avg-feedback`. -/
def avgFeedback (s : Store) (collegeId : Option String) : List FeedbackRow :=
  let rows := s.feedbacks.filter
    (fun f => !truthy collegeId || decide (some f.collegeId = collegeId))
  (groupKeys (fun f => f.eventId) rows).map (fun k =>
    let g := rows.filter (fun f => decide (f.eventId = k))
    ({ eventId := k, avgRating := avgRatingOf (g.map (fun f => f.rating)),
       feedbackCount := g.length,
       title := (Event.findByPk s k).map (fun e => e.title) } : FeedbackRow))

/-- Row of `student-participation`. -/
structure ParticipationRow where
  studentId : String
  eventsRegistered : Nat
  eventsAttended : Nat
  studentRoll : Option String
  name : Option String
deriving DecidableEq, Repr

/-- The `WHERE` clause shared by the two per-student reports. -/
def collegeFilter (collegeId : Option String) (r : Registration) : Bool :=
  !truthy collegeId || decide (some r.collegeId = collegeId)

/-- Model of `GET /reports/student-participation`. -/
def studentParticipation (s : Store) (collegeId : Option String) : List ParticipationRow :=
  let rows := s.registrations.filter (collegeFilter collegeId)
  let groups := (groupKeys (fun r => r.studentId) rows).map (fun k =>
    let g := rows.filter (fun r => decide (r.studentId = k))
    (k, g.length, g.countP (fun r => decide (r.attendanceStatus = some "present"))))
  let sorted := groups.insertionSort (fun a b => b.2.2 ≤ a.2.2)
  sorted.map (fun q =>
    ({ studentId := q.1, eventsRegistered := q.2.1, eventsAttended := q.2.2,
       studentRoll := (Student.findByPk s q.1).map (fun st => st.studentRoll),
       name := (Student.findByPk s q.1).bind (fun st => st.name) } : ParticipationRow))

/-- Row of `top-active-students`. -/
structure TopRow where
  studentId : String
  attended : Nat
  studentRoll : Option String
  name : Option String
deriving DecidableEq, Repr

/-- Model of `GET /reports/top-active-students`. -/
def topActiveStudents (s : Store) (collegeId : Option String) : List TopRow :=
  let rows := s.registrations.filter (collegeFilter collegeId)
  let groups := (groupKeys (fun r => r.studentId) rows).map (fun k =>
    let g := rows.filter (fun r => decide (r.studentId = k))
    (k, g.countP (fun r => decide (r.attendanceStatus = some "present"))))
  let sorted := groups.insertionSort (fun a b => b.2 ≤ a.2)
  (sorted.take 3).map (fun q =>
    ({ studentId := q.1, attended := q.2,
       studentRoll := (Student.findByPk s q.1).map (fun st => st.studentRoll),
       name := (Student.findByPk s q.1).bind (fun st => st.name) } : TopRow))

/-! ## Seed script (`src/seed.js`) -/

/-- The literal `studentsData`: id, studentRoll, name, email. -/
def studentsData : List (String × String × String × String) := [
  ("S001", "R001", "Akshay", "akshay@example.com"),
  ("S002", "R002", "Priya", "priya@example.com"),
  ("S003", "R003", "Ravi", "ravi@example.com"),
  ("S004", "R004", "Ananya", "ananya@example.com"),
  ("S005", "R005", "Kavana", "kavana@example.com"),
  ("S006", "R006", "Manoj", "manoj@example.com"),
  ("S007", "R007", "Sneha", "sneha@example.com"),
  ("S008", "R008", "Rahul", "rahul@example.com"),
  ("S009", "R009", "Divya", "divya@example.com"),
  ("S010", "R010", "Arjun", "arjun@example.com"),
  ("S011", "R011", "Meera", "meera@example.com"),
  ("S012", "R012", "Varun", "varun@example.com"),
  ("S013", "R013", "Snehal", "snehal@example.com"),
  ("S014", "R014", "Pooja", "pooja@example.com"),
  ("S015", "R015", "Deepak", "deepak@example.com"),
  ("S016", "R016", "Harsha", "harsha@example.com"),
  ("S017", "R017", "Nandini", "nandini@example.com"),
  ("S018", "R018", "Sanjay", "sanjay@example.com"),
  ("S019", "R019", "Aishwarya", "aishwarya@example.com"),
  ("S020", "R020", "Kiran", "kiran@example.com")]

/-- The argument of `Student.bulkCreate`: `studentsData` with `collegeId` added. -/
def seedStudents (collegeId : String) : List Student :=
  studentsData.map (fun d =>
    ({ id := d.1, studentRoll := d.2.1, name := some d.2.2.1, email := some d.2.2.2,
       collegeId := collegeId } : Student))

/-- The literal `statusCycle`. -/
def statusCycle : List String := ["present", "present", "absent", "registered", "late"]

/-- The expression `students[i].id`. -/
def studentIdAt (students : List Student) (i : Nat) : String :=
  ((students.get? i).map (fun st => st.id)).getD ""

/-- The array `regs` built by the two loops and the two final `push` calls: eventId,
studentId, collegeId, attendanceStatus. -/
def seedRegs (students : List Student) : List (String × String × String × String) :=
  (List.range 14).map (fun i =>
      ("E001", studentIdAt students i, "C001", statusCycle.getD (i % statusCycle.length) ""))
    ++ (List.range 10).map (fun i =>
      ("E002", studentIdAt students i, "C001",
        if i % 3 = 0 then "present" else if i % 3 = 1 then "registered" else "late"))
    ++ [("E001", studentIdAt students 4, "C001", "present"),
        ("E002", studentIdAt students 4, "C001", "present")]

/-- The loop `for (const r of regs) { try { await create(r) } catch {} }`: a row whose
`create` throws is skipped. -/
def createIgnoringErrors (create : Store → Registration → Except DbError Store)
    (s : Store) : List Registration → Store
  | [] => s
  | r :: rest =>
    match create s r with
    | .ok s1 => createIgnoringErrors create s1 rest
    | .error _ => createIgnoringErrors create s rest

/-- The rows given to `Registration.create`: the `k`-th element of `regs` with the id
`uuid k` drawn from `genUUID`. -/
def regsWithIds (uuid : Nat → String) (regs : List (String × String × String × String)) :
    List Registration :=
  regs.enum.map (fun q =>
    ({ id := uuid q.1, eventId := q.2.1, studentId := q.2.2.1, collegeId := q.2.2.2.1,
       attendanceStatus := some q.2.2.2.2 } : Registration))

/-- The literal `feedbacksData` with ids drawn from `genUUID` after the registrations. -/
def seedFeedbacks (uuid : Nat → String) (students : List Student) : List Feedback := [
  { id := uuid 26, eventId := "E001", studentId := studentIdAt students 0,
    collegeId := "C001", rating := 5, comments := some "Excellent workshop!" },
  { id := uuid 27, eventId := "E001", studentId := studentIdAt students 1,
    collegeId := "C001", rating := 4, comments := some "Very useful." },
  { id := uuid 28, eventId := "E002", studentId := studentIdAt students 4,
    collegeId := "C001", rating := 3, comments := some "Good, could be better." },
  { id := uuid 29, eventId := "E002", studentId := studentIdAt students 9,
    collegeId := "C001", rating := 4, comments := some "Fun fest." }]

/-- Model of `seed()`: the state of the database when the script exits.  `uuid k` is
the value of the `k`-th call of `genUUID`.  A throwing step outside the registration
loop ends the script with what was written before it. -/
def seed (uuid : Nat → String) : Store :=
  match College.create Store.empty ⟨"C001", "Reva University", some "reva.edu"⟩ with
  | .error _ => Store.empty
  | .ok s1 =>
    match Event.create s1 ⟨"E001", "C001", "AI Workshop", some "published"⟩ with
    | .error _ => s1
    | .ok s2 =>
      match Event.create s2 ⟨"E002", "C001", "Tech Fest", some "published"⟩ with
      | .error _ => s2
      | .ok s3 =>
        let students := seedStudents "C001"
        match Student.bulkCreate s3 students with
        | .error _ => s3
        | .ok s4 =>
          let s5 := createIgnoringErrors Registration.create s4
            (regsWithIds uuid (seedRegs students))
          match Feedback.bulkCreate s5 (seedFeedbacks uuid students) with
          | .error _ => s5
          | .ok s6 => s6

/-! ## Inserting a row whose generated id is new -/

/-- The insert of `Store.insertRegistration` for a row whose id occurs in no stored
Registration: the primary-key test cannot fail and is left out. -/
def Store.insertRegistrationFresh (s : Store) (r : Registration) : Except DbError Store :=
  if s.registrations.any
      (fun x => decide (x.eventId = r.eventId ∧ x.studentId = r.studentId)) then
    .error .uniqueConstraintError
  else if ¬ (s.events.any (fun e => decide (e.id = r.eventId))
      ∧ s.students.any (fun st => decide (st.id = r.studentId))
      ∧ s.colleges.any (fun c => decide (c.id = r.collegeId))) then
    .error .foreignKeyConstraintError
  else .ok { s with registrations := s.registrations ++ [r] }

/-- The variant of `Registration.create` for a row whose id occurs in no stored
Registration. -/
def Registration.createFresh (s : Store) (r : Registration) : Except DbError Store :=
  match r.attendanceStatus with
  | some v =>
    if v ∈ attendanceStatuses then s.insertRegistrationFresh r else .error .validationError
  | none => s.insertRegistrationFresh r

/-- The row `r` with its generated id blanked. -/
def Registration.eraseId (r : Registration) : Registration := { r with id := "" }

/-- State of the seed script before the registration loop. -/
def seedBase : Store :=
  { colleges := [⟨"C001", "Reva University", some "reva.edu"⟩],
    students := seedStudents "C001",
    events := [⟨"E001", "C001", "AI Workshop", some "published"⟩,
      ⟨"E002", "C001", "Tech Fest", some "published"⟩],
    registrations := [], feedbacks := [] }

/-- The status validator and the foreign keys accept the row `r` in state `s`. -/
def Registration.admissible (s : Store) (r : Registration) : Bool :=
  (match r.attendanceStatus with
    | some v => decide (v ∈ attendanceStatuses)
    | none => true)
  && s.events.any (fun e => decide (e.id = r.eventId))
  && s.students.any (fun st => decide (st.id = r.studentId))
  && s.colleges.any (fun c => decide (c.id = r.collegeId))

/-! ## Concrete states used in examples -/

/-- Registration number `i` of `tieStore`: student `i` for event `E1`. -/
def tieReg (status : String) (i : Nat) : Registration :=
  { id := "G" ++ toString i, eventId := "E1", studentId := "S" ++ toString i,
    collegeId := "C1", attendanceStatus := some status }

/-- A state with one event and 800 students registered for it, 57 of them present. -/
def tieStore : Store :=
  { colleges := [⟨"C1", "College", none⟩],
    students := (List.range 800).map
      (fun i => ⟨"S" ++ toString i, "R" ++ toString i, none, none, "C1"⟩),
    events := [⟨"E1", "C1", "Quiz", some "published"⟩],
    registrations := (List.range 57).map (tieReg "present")
      ++ (List.range 743).map (fun i => tieReg "absent" (57 + i)),
    feedbacks := [] }

/-- A small state: two colleges, three events, four students, four registrations and
three feedback rows. -/
def demoStore : Store :=
  { colleges := [⟨"C1", "North", none⟩, ⟨"C2", "South", none⟩],
    students := [⟨"S1", "R1", some "Asha", none, "C1"⟩, ⟨"S2", "R2", some "Binu", none, "C1"⟩,
      ⟨"S3", "R3", none, none, "C1"⟩, ⟨"S4", "R1", some "Chitra", none, "C2"⟩],
    events := [⟨"E1", "C1", "Quiz", some "published"⟩, ⟨"E2", "C1", "Talk", some "draft"⟩,
      ⟨"E3", "C2", "Expo", some "published"⟩],
    registrations := [⟨"G1", "E1", "S1", "C1", some "present"⟩,
      ⟨"G2", "E1", "S2", "C1", some "absent"⟩, ⟨"G3", "E1", "S3", "C1", some "registered"⟩,
      ⟨"G4", "E3", "S4", "C2", some "present"⟩],
    feedbacks := [⟨"F1", "E1", "S1", "C1", 5, none⟩, ⟨"F2", "E1", "S2", "C1", 4, none⟩,
      ⟨"F3", "E3", "S4", "C2", 3, some "fine"⟩] }

/-- A supply of pairwise different ids: `k` copies of the letter `u`. -/
def sampleUuid (k : Nat) : String := String.mk (List.replicate k 'u')

/-- A state that satisfies every declared constraint and has a college whose id is the
empty string. -/
def emptyIdStore : Store :=
  { colleges := [⟨"", "Central", none⟩, ⟨"C2", "South", none⟩],
    students := [⟨"S1", "R1", none, none, ""⟩, ⟨"S2", "R1", none, none, "C2"⟩],
    events := [⟨"E1", "", "Quiz", some "published"⟩, ⟨"E2", "C2", "Expo", some "published"⟩],
    registrations := [⟨"G1", "E1", "S1", "", some "present"⟩,
      ⟨"G2", "E2", "S2", "C2", some "present"⟩],
    feedbacks := [] }

/-- A request body of `POST /register` for a student not yet stored. -/
def newcomerBody : RegisterBody :=
  { eventId := some "E1", studentRoll := some "R9", name := some "Dev", email := none,
    collegeId := some "C1" }

/-- The Registration that `newcomerBody` creates in `demoStore`. -/
def newcomerReg : Registration :=
  { id := "G9", eventId := "E1", studentId := "S9", collegeId := "C1",
    attendanceStatus := some "registered" }

/-- The state `demoStore` after `newcomerBody` was registered. -/
def newcomerStore : Store :=
  { demoStore with
    students := demoStore.students ++ [⟨"S9", "R9", some "Dev", none, "C1"⟩],
    registrations := demoStore.registrations ++ [newcomerReg] }

/-- A request body of `POST /register` that names an event of college C2 and the
college C1. -/
def crossBody : RegisterBody :=
  { eventId := some "E3", studentRoll := some "R1", name := none, email := none,
    collegeId := some "C1" }

/-- A request body of `POST /feedback` that names an event of college C2 and the
college C1. -/
def crossFeedback : FeedbackBody :=
  { eventId := some "E3", studentRoll := some "R1", collegeId := some "C1",
    rating := some 4, comments := none }

/-- A request body of `POST /register` for the draft event E2. -/
def draftBody : RegisterBody :=
  { eventId := some "E2", studentRoll := some "R9", name := some "Dev", email := none,
    collegeId := some "C1" }

/-- The constraints declared in `models.js` hold in `s`: primary keys, the two unique
indexes, and the foreign keys of the associations. -/
def Store.Valid (s : Store) : Prop :=
  (s.colleges.map (fun c => c.id)).Nodup
    ∧ (s.students.map (fun st => st.id)).Nodup
    ∧ (s.events.map (fun e => e.id)).Nodup
    ∧ (s.registrations.map (fun r => r.id)).Nodup
    ∧ (s.feedbacks.map (fun f => f.id)).Nodup
    ∧ (s.students.map (fun st => (st.studentRoll, st.collegeId))).Nodup
    ∧ (s.registrations.map (fun r => (r.eventId, r.studentId))).Nodup
    ∧ (∀ st ∈ s.students, ∃ c ∈ s.colleges, c.id = st.collegeId)
    ∧ (∀ e ∈ s.events, ∃ c ∈ s.colleges, c.id = e.collegeId)
    ∧ (∀ r ∈ s.registrations, (∃ e ∈ s.events, e.id = r.eventId)
        ∧ (∃ st ∈ s.students, st.id = r.studentId) ∧ ∃ c ∈ s.colleges, c.id = r.collegeId)
    ∧ (∀ f ∈ s.feedbacks, (∃ e ∈ s.events, e.id = f.eventId)
        ∧ (∃ st ∈ s.students, st.id = f.studentId) ∧ ∃ c ∈ s.colleges, c.id = f.collegeId)

/-- Effect of `event.destroy()`: the Event is deleted, and `ON DELETE CASCADE` deletes
the Registrations and the Feedbacks of the event. -/
def Store.destroyEvent (s : Store) (id : String) : Store :=
  { s with
    events := s.events.filter (fun e => decide (e.id ≠ id)),
    registrations := s.registrations.filter (fun r => decide (r.eventId ≠ id)),
    feedbacks := s.feedbacks.filter (fun f => decide (f.eventId ≠ id)) }

/-- Model of `DELETE /events/:id` (hard delete). -/
def deleteEvent (s : Store) (id : String) : Reply String × Store :=
  match Event.findByPk s id with
  | none => (.error 404 (.text "Event not found"), s)
  | some _ => (.json 200 "Event deleted successfully", s.destroyEvent id)

/-- Model of `GET /reports/attendance-percent` when other requests may write while it
runs: the aggregate query reads the state `s`; the `findByPk` of row `i`, awaited
afterwards, reads the state `later i`. -/
def attendancePercentAt (s : Store) (later : Nat → Store) (collegeId eventId : Option String) :
    List AttendanceRow :=
  let rows := s.registrations.filter (attendanceFilter collegeId eventId)
  (groupKeys (fun r => r.eventId) rows).enum.map (fun q =>
    let g := rows.filter (fun r => decide (r.eventId = q.2))
    let total := g.length
    let present := g.countP (fun r => decide (r.attendanceStatus = some "present"))
    ({ eventId := q.2, totalRegistered := total, presentCount := present,
       title := (Event.findByPk (later q.1) q.2).map (fun e => e.title),
       attendancePercent := attendancePercentOf present total } : AttendanceRow))

/-- Model of `GET /reports/avg-feedback` with the lookup of row `i` reading `later i`. -/
def avgFeedbackAt (s : Store) (later : Nat → Store) (collegeId : Option String) :
    List FeedbackRow :=
  let rows := s.feedbacks.filter
    (fun f => !truthy collegeId || decide (some f.collegeId = collegeId))
  (groupKeys (fun f => f.eventId) rows).enum.map (fun q =>
    let g := rows.filter (fun f => decide (f.eventId = q.2))
    ({ eventId := q.2, avgRating := avgRatingOf (g.map (fun f => f.rating)),
       feedbackCount := g.length,
       title := (Event.findByPk (later q.1) q.2).map (fun e => e.title) } : FeedbackRow))

/-- Model of `GET /reports/student-participation` with the lookup of row `i` reading
`later i`. -/
def studentParticipationAt (s : Store) (later : Nat → Store) (collegeId : Option String) :
    List ParticipationRow :=
  let rows := s.registrations.filter (collegeFilter collegeId)
  let groups := (groupKeys (fun r => r.studentId) rows).map (fun k =>
    let g := rows.filter (fun r => decide (r.studentId = k))
    (k, g.length, g.countP (fun r => decide (r.attendanceStatus = some "present"))))
  let sorted := groups.insertionSort (fun a b => b.2.2 ≤ a.2.2)
  sorted.enum.map (fun q =>
    ({ studentId := q.2.1, eventsRegistered := q.2.2.1, eventsAttended := q.2.2.2,
       studentRoll := (Student.findByPk (later q.1) q.2.1).map (fun st => st.studentRoll),
       name := (Student.findByPk (later q.1) q.2.1).bind (fun st => st.name) }
      : ParticipationRow))

/-- Model of `GET /reports/top-active-students` with the lookup of row `i` reading
`later i`. -/
def topActiveStudentsAt (s : Store) (later : Nat → Store) (collegeId : Option String) :
    List TopRow :=
  let rows := s.registrations.filter (collegeFilter collegeId)
  let groups := (groupKeys (fun r => r.studentId) rows).map (fun k =>
    let g := rows.filter (fun r => decide (r.studentId = k))
    (k, g.countP (fun r => decide (r.attendanceStatus = some "present"))))
  let sorted := groups.insertionSort (fun a b => b.2 ≤ a.2)
  (sorted.take 3).enum.map (fun q =>
    ({ studentId := q.2.1, attended := q.2.2,
       studentRoll := (Student.findByPk (later q.1) q.2.1).map (fun st => st.studentRoll),
       name := (Student.findByPk (later q.1) q.2.1).bind (fun st => st.name) } : TopRow))

/-- The state `demoStore` after `DELETE /events/E1`. -/
def demoAfterDelete : Store := (deleteEvent demoStore "E1").2

/-! ## Rounding to double precision: error bound and monotonicity -/

theorem roundHalfEven_sub_le (x : ℚ) : |(roundHalfEven x : ℚ) - x| ≤ 1/2 := by
  have h1 := Int.floor_le x
  have h2 := Int.lt_floor_add_one x
  unfold roundHalfEven
  rw [abs_le]
  split_ifs <;> push_cast <;> constructor <;> linarith

theorem le_roundHalfEven {n : ℤ} {x : ℚ} (h : (n : ℚ) ≤ x) : n ≤ roundHalfEven x := by
  have h1 : n ≤ ⌊x⌋ := Int.le_floor.mpr h
  unfold roundHalfEven
  split_ifs <;> omega

theorem roundHalfEven_le {n : ℤ} {x : ℚ} (h : x ≤ (n : ℚ)) : roundHalfEven x ≤ n := by
  have h0 : ⌊x⌋ ≤ n := Int.floor_le_floor h |>.trans (by simp)
  have h1 := Int.floor_le x
  unfold roundHalfEven
  by_cases hx : x - ⌊x⌋ < 1/2
  · rw [if_pos hx]; exact h0
  · have hlt : ⌊x⌋ < n := by
      rcases lt_or_eq_of_le h0 with h' | h'
      · exact h'
      · exfalso; rw [h'] at hx; linarith
    rw [if_neg hx]
    split_ifs <;> omega

theorem binExp_spec {q : ℚ} (hq : 0 < q) :
    (2:ℚ) ^ (52:ℤ) * (2:ℚ) ^ binExp q ≤ q ∧ q < (2:ℚ) ^ (53:ℤ) * (2:ℚ) ^ binExp q := by
  unfold binExp
  rw [abs_of_pos hq]
  have h1 := Int.zpow_log_le_self (b := 2) (by norm_num) hq
  have h2 := Int.lt_zpow_succ_log_self (b := 2) (by norm_num) q
  rw [← zpow_add₀ (by norm_num), ← zpow_add₀ (by norm_num)]
  constructor
  · have : (52:ℤ) + (Int.log 2 q - 52) = Int.log 2 q := by ring
    rw [this]; exact_mod_cast h1
  · have : (53:ℤ) + (Int.log 2 q - 52) = Int.log 2 q + 1 := by ring
    rw [this]; exact_mod_cast h2

theorem roundDouble_pos_eq {q : ℚ} (hq : 0 < q) :
    roundDouble q = (roundHalfEven (q / (2:ℚ) ^ binExp q) : ℚ) * (2:ℚ) ^ binExp q := by
  unfold roundDouble; rw [if_neg hq.ne']

/-- Relative error of rounding a positive rational to double precision. -/
theorem roundDouble_error {q : ℚ} (hq : 0 < q) :
    |roundDouble q - q| ≤ q / (2:ℚ) ^ (53:ℤ) := by
  have hpos : (0:ℚ) < (2:ℚ) ^ binExp q := zpow_pos (by norm_num) _
  obtain ⟨hlo, _⟩ := binExp_spec hq
  have herr := roundHalfEven_sub_le (q / (2:ℚ) ^ binExp q)
  rw [roundDouble_pos_eq hq]
  have hq' : q = q / (2:ℚ) ^ binExp q * (2:ℚ) ^ binExp q := by field_simp
  have : (roundHalfEven (q / (2:ℚ) ^ binExp q) : ℚ) * (2:ℚ) ^ binExp q - q
      = ((roundHalfEven (q / (2:ℚ) ^ binExp q) : ℚ) - q / (2:ℚ) ^ binExp q) * (2:ℚ) ^ binExp q := by
    field_simp
  rw [this, abs_mul, abs_of_pos hpos]
  have h53 : ((2:ℚ) ^ (53:ℤ)) = 2 * (2:ℚ) ^ (52:ℤ) := by norm_num
  rw [h53, le_div_iff₀ (by positivity)]
  have h52 : (0:ℚ) < (2:ℚ) ^ (52:ℤ) := by positivity
  nlinarith [mul_le_mul_of_nonneg_right herr hpos.le, abs_nonneg ((roundHalfEven (q / (2:ℚ) ^ binExp q) : ℚ) - q / (2:ℚ) ^ binExp q)]

theorem scaled_int {m j e : ℤ} (hje : e ≤ j) :
    (m : ℚ) * (2:ℚ) ^ j / (2:ℚ) ^ e = ((m * 2 ^ (j - e).toNat : ℤ) : ℚ) := by
  have h2 : (2:ℚ) ≠ 0 := by norm_num
  have hj : j = (j - e) + e := by ring
  have hnat : ((j - e).toNat : ℤ) = j - e := Int.toNat_of_nonneg (by omega)
  rw [div_eq_iff (zpow_ne_zero _ h2)]
  push_cast
  rw [mul_assoc, ← zpow_natCast, hnat, ← zpow_add₀ h2, ← hj]

theorem roundDouble_le_of_le {x a : ℚ} (hx : 0 < x) (hxa : x ≤ a) (ha : IsDouble a) :
    roundDouble x ≤ a := by
  obtain ⟨m, j, hm, rfl⟩ := ha
  have hpos : (0:ℚ) < (2:ℚ) ^ binExp x := zpow_pos (by norm_num) _
  have hposj : (0:ℚ) < (2:ℚ) ^ j := zpow_pos (by norm_num) _
  obtain ⟨hlo, _⟩ := binExp_spec hx
  have hmq : (m : ℚ) < (2:ℚ) ^ (53:ℤ) := by
    have : m < 2 ^ 53 := lt_of_le_of_lt (le_abs_self m) hm
    have h : (m : ℚ) < ((2 ^ 53 : ℤ) : ℚ) := Int.cast_lt.mpr this
    have e : ((2 ^ 53 : ℤ) : ℚ) = (2:ℚ) ^ (53:ℤ) := by norm_num
    rw [e] at h; exact h
  have hlt : (2:ℚ) ^ ((52:ℤ) + binExp x) < (2:ℚ) ^ ((53:ℤ) + j) := by
    rw [zpow_add₀ (by norm_num), zpow_add₀ (by norm_num)]
    calc (2:ℚ) ^ (52:ℤ) * (2:ℚ) ^ binExp x ≤ x := hlo
      _ ≤ (m : ℚ) * (2:ℚ) ^ j := hxa
      _ < (2:ℚ) ^ (53:ℤ) * (2:ℚ) ^ j := by exact mul_lt_mul_of_pos_right hmq hposj
  have hej : binExp x ≤ j := by
    have := (zpow_lt_zpow_iff_right₀ (by norm_num : (1:ℚ) < 2)).mp hlt
    omega
  have hN := scaled_int (m := m) hej
  have hle : x / (2:ℚ) ^ binExp x ≤ ((m * 2 ^ (j - binExp x).toNat : ℤ) : ℚ) := by
    rw [← hN]; exact div_le_div_of_nonneg_right hxa hpos.le
  have hr := roundHalfEven_le hle
  rw [roundDouble_pos_eq hx]
  calc (roundHalfEven (x / (2:ℚ) ^ binExp x) : ℚ) * (2:ℚ) ^ binExp x
      ≤ ((m * 2 ^ (j - binExp x).toNat : ℤ) : ℚ) * (2:ℚ) ^ binExp x := by
        apply mul_le_mul_of_nonneg_right _ hpos.le
        exact_mod_cast hr
    _ = (m : ℚ) * (2:ℚ) ^ j := by rw [← hN]; field_simp

theorem le_roundDouble_of_le {x a : ℚ} (ha0 : 0 < a) (hax : a ≤ x) (ha : IsDouble a) :
    a ≤ roundDouble x := by
  obtain ⟨m, j, hm, rfl⟩ := ha
  have hx : 0 < x := lt_of_lt_of_le ha0 hax
  have hpos : (0:ℚ) < (2:ℚ) ^ binExp x := zpow_pos (by norm_num) _
  have hposj : (0:ℚ) < (2:ℚ) ^ j := zpow_pos (by norm_num) _
  obtain ⟨hlo, _⟩ := binExp_spec hx
  have hmq : (m : ℚ) < (2:ℚ) ^ (53:ℤ) := by
    have : m < 2 ^ 53 := lt_of_le_of_lt (le_abs_self m) hm
    have h : (m : ℚ) < ((2 ^ 53 : ℤ) : ℚ) := Int.cast_lt.mpr this
    have e : ((2 ^ 53 : ℤ) : ℚ) = (2:ℚ) ^ (53:ℤ) := by norm_num
    rw [e] at h; exact h
  rw [roundDouble_pos_eq hx]
  by_cases hej : binExp x ≤ j
  · have hN := scaled_int (m := m) hej
    have hle : ((m * 2 ^ (j - binExp x).toNat : ℤ) : ℚ) ≤ x / (2:ℚ) ^ binExp x := by
      rw [← hN]; exact div_le_div_of_nonneg_right hax hpos.le
    have hr := le_roundHalfEven hle
    calc (m : ℚ) * (2:ℚ) ^ j
        = ((m * 2 ^ (j - binExp x).toNat : ℤ) : ℚ) * (2:ℚ) ^ binExp x := by
          rw [← hN]; field_simp
      _ ≤ (roundHalfEven (x / (2:ℚ) ^ binExp x) : ℚ) * (2:ℚ) ^ binExp x := by
        apply mul_le_mul_of_nonneg_right _ hpos.le
        exact_mod_cast hr
  · have hje : j + 1 ≤ binExp x := by omega
    have h52 : (((2 ^ 52 : ℤ)) : ℚ) ≤ x / (2:ℚ) ^ binExp x := by
      rw [le_div_iff₀ hpos]
      have : (((2 ^ 52 : ℤ)) : ℚ) = (2:ℚ) ^ (52:ℤ) := by norm_num
      rw [this]; exact hlo
    have hr := le_roundHalfEven h52
    have hr' : (2:ℚ) ^ (52:ℤ) ≤ (roundHalfEven (x / (2:ℚ) ^ binExp x) : ℚ) := by
      have h : (((2 ^ 52 : ℤ)) : ℚ) ≤ (roundHalfEven (x / (2:ℚ) ^ binExp x) : ℚ) :=
        Int.cast_le.mpr hr
      have e : ((2 ^ 52 : ℤ) : ℚ) = (2:ℚ) ^ (52:ℤ) := by norm_num
      rw [e] at h; exact h
    calc (m : ℚ) * (2:ℚ) ^ j ≤ (2:ℚ) ^ (53:ℤ) * (2:ℚ) ^ j :=
          mul_le_mul_of_nonneg_right hmq.le hposj.le
      _ = (2:ℚ) ^ (52:ℤ) * (2:ℚ) ^ (j + 1) := by
          rw [zpow_add₀ (by norm_num : (2:ℚ) ≠ 0)]; norm_num; ring
      _ ≤ (2:ℚ) ^ (52:ℤ) * (2:ℚ) ^ binExp x := by
          apply mul_le_mul_of_nonneg_left _ (by positivity)
          exact zpow_le_zpow_right₀ (by norm_num) hje
      _ ≤ (roundHalfEven (x / (2:ℚ) ^ binExp x) : ℚ) * (2:ℚ) ^ binExp x :=
          mul_le_mul_of_nonneg_right hr' hpos.le

theorem binExp_eq {q : ℚ} {e : ℤ} (hq : 0 < q) (h1 : (2:ℚ) ^ (52 + e) ≤ q)
    (h2 : q < (2:ℚ) ^ (52 + e + 1)) : binExp q = e := by
  unfold binExp
  rw [abs_of_pos hq]
  have a : 52 + e ≤ Int.log 2 q := by
    rw [← Int.zpow_le_iff_le_log (by norm_num) hq]; exact_mod_cast h1
  have b : Int.log 2 q < 52 + e + 1 := by
    rw [← Int.lt_zpow_iff_log_lt (by norm_num) hq]; exact_mod_cast h2
  omega

theorem roundHalfEven_eq {x : ℚ} {m : ℤ} (h1 : (m : ℚ) - 1 / 2 < x) (h2 : x < (m : ℚ) + 1 / 2) :
    roundHalfEven x = m := by
  have hf1 := Int.floor_le x
  have hf2 := Int.lt_floor_add_one x
  have hlo : m - 1 ≤ ⌊x⌋ := by
    rw [Int.le_floor]; push_cast; linarith
  have hhi : ⌊x⌋ ≤ m := by
    have : ⌊x⌋ < m + 1 := by
      rw [Int.floor_lt]; push_cast; linarith
    omega
  unfold roundHalfEven
  rcases (by omega : ⌊x⌋ = m - 1 ∨ ⌊x⌋ = m) with h | h
  · have hc : (⌊x⌋ : ℚ) = m - 1 := by rw [h]; push_cast; ring
    rw [if_neg (by rw [hc]; linarith), if_pos (by rw [hc]; linarith), h]; ring
  · have hc : (⌊x⌋ : ℚ) = m := by rw [h]
    rw [if_pos (by rw [hc]; linarith), h]

/-- Evaluation of `roundDouble` at a value that is not a tie. -/
theorem roundDouble_eq {q : ℚ} (m e : ℤ) (hq : 0 < q) (h1 : (2:ℚ) ^ (52 + e) ≤ q)
    (h2 : q < (2:ℚ) ^ (52 + e + 1)) (h3 : (m : ℚ) - 1 / 2 < q / (2:ℚ) ^ e)
    (h4 : q / (2:ℚ) ^ e < (m : ℚ) + 1 / 2) : roundDouble q = (m : ℚ) * (2:ℚ) ^ e := by
  rw [roundDouble_pos_eq hq, binExp_eq hq h1 h2, roundHalfEven_eq h3 h4]

theorem attendancePercentOf_57_800 : attendancePercentOf 57 800 = roundDouble (712 / 100) := by
  have y1 : roundDouble ((57:ℚ) / 800) = 5134103575202365 / 72057594037927936 := by
    rw [roundDouble_eq 5134103575202365 (-56)] <;> norm_num
  have y2 : roundDouble ((5134103575202365:ℚ) / 72057594037927936 * 10000)
      = 6267216278323199 / 8796093022208 := by
    rw [roundDouble_eq 6267216278323199 (-43)] <;> norm_num
  have k : jsRound ((6267216278323199:ℚ) / 8796093022208) = 712 := by
    unfold jsRound
    rw [Int.floor_eq_iff]
    constructor <;> norm_num
  unfold attendancePercentOf
  rw [if_pos (by norm_num)]
  simp only [Nat.cast_ofNat]
  rw [y1, y2, k]
  norm_num

theorem roundDouble_712_ne : roundDouble (712 / 100) ≠ roundDouble (713 / 100) := by
  have a := abs_le.mp (roundDouble_error (q := 712 / 100) (by norm_num))
  have b := abs_le.mp (roundDouble_error (q := 713 / 100) (by norm_num))
  have h53 : (2:ℚ) ^ (53:ℤ) = 9007199254740992 := by norm_num
  rw [h53] at a b
  intro h
  rw [h] at a
  linarith [a.2, b.1]

theorem specAttendancePercent_57_800 : specAttendancePercent 57 800 = 713 / 100 := by
  unfold specAttendancePercent roundHalfUp2
  rw [if_neg (by norm_num)]
  have : ⌊((57:ℕ) : ℚ) / ((800:ℕ) : ℚ) * 100 * 100 + 1 / 2⌋ = 713 := by
    rw [Int.floor_eq_iff]; constructor <;> norm_num
  rw [this]; norm_num

theorem roundDouble_zero : roundDouble 0 = 0 := by
  unfold roundDouble; simp

theorem roundDouble_pos {q : ℚ} (hq : 0 < q) : 0 < roundDouble q := by
  have h := roundDouble_error hq
  have h53 : (1:ℚ) < (2:ℚ) ^ (53:ℤ) := by norm_num
  have : q / (2:ℚ) ^ (53:ℤ) < q := div_lt_self hq h53
  have := (abs_le.mp h).1
  linarith

/-- The double-precision product `(p / t) * 10000` differs from the exact rational by
less than `2 ^ (-38)` when `p ≤ t`. -/
theorem scaled_ratio_error {p t : ℕ} (hp : 0 < p) (ht : 0 < t) (hpt : p ≤ t) :
    |roundDouble (roundDouble ((p : ℚ) / (t : ℚ)) * 10000) - (p : ℚ) / (t : ℚ) * 10000|
      < 1 / (2:ℚ) ^ (38:ℤ) := by
  have hp' : (0:ℚ) < p := by exact_mod_cast hp
  have ht' : (0:ℚ) < t := by exact_mod_cast ht
  have hq : (0:ℚ) < (p : ℚ) / (t : ℚ) := div_pos hp' ht'
  have hq1 : (p : ℚ) / (t : ℚ) ≤ 1 := by
    rw [div_le_one ht']; exact_mod_cast hpt
  have e1 := abs_le.mp (roundDouble_error hq)
  have hy1 := roundDouble_pos hq
  have hy : (0:ℚ) < roundDouble ((p : ℚ) / (t : ℚ)) * 10000 := by positivity
  have e2 := abs_le.mp (roundDouble_error hy)
  have h53 : (2:ℚ) ^ (53:ℤ) = 9007199254740992 := by norm_num
  have h38 : (2:ℚ) ^ (38:ℤ) = 274877906944 := by norm_num
  rw [h53] at e1 e2
  rw [h38, abs_lt]
  constructor <;> linarith [e1.1, e1.2, e2.1, e2.2]

theorem attendancePercentOf_eq_spec {p t : ℕ} (ht : 0 < t) (hpt : p ≤ t)
    (hbig : t ≤ 2 ^ 32) (hhalf : (20000 * p + t) % (2 * t) ≠ 0) :
    attendancePercentOf p t = roundDouble (specAttendancePercent p t) := by
  have ht' : (0:ℚ) < t := by exact_mod_cast ht
  have htne : (t:ℚ) ≠ 0 := ht'.ne'
  unfold attendancePercentOf specAttendancePercent roundHalfUp2 jsRound
  rw [if_pos (by omega), if_neg (by omega)]
  congr 3
  -- the exact value plus one half, as quotient and remainder
  set k : ℕ := (20000 * p + t) / (2 * t) with hk
  set r : ℕ := (20000 * p + t) % (2 * t) with hr
  have hdm : 2 * t * k + r = 20000 * p + t := Nat.div_add_mod _ _
  have hr1 : 1 ≤ r := Nat.one_le_iff_ne_zero.mpr hhalf
  have hr2 : r + 1 ≤ 2 * t := Nat.mod_lt _ (by omega)
  have hdmq : (2:ℚ) * t * k + r = 20000 * p + t := by exact_mod_cast hdm
  have hx : (p : ℚ) / (t : ℚ) * 10000 + 1 / 2 = (k : ℚ) + (r : ℚ) / (2 * t) := by
    have h1 : (p : ℚ) / (t : ℚ) * 10000 + 1 / 2 = (20000 * p + t) / (2 * t) := by
      field_simp; ring
    rw [h1, ← hdmq]; field_simp; ring
  have hr1q : (1:ℚ) ≤ r := by exact_mod_cast hr1
  have hr2q : (r:ℚ) + 1 ≤ 2 * t := by exact_mod_cast hr2
  have hbigq : (t:ℚ) ≤ 4294967296 := by exact_mod_cast hbig
  have hlo : (1:ℚ) / (2 * t) ≤ (r : ℚ) / (2 * t) := by
    apply div_le_div_of_nonneg_right hr1q (by positivity)
  have hhi : (r : ℚ) / (2 * t) ≤ 1 - 1 / (2 * t) := by
    rw [div_le_iff₀ (by positivity)]
    field_simp
    linarith
  have hgap : (1:ℚ) / (2:ℚ) ^ (38:ℤ) < 1 / (2 * t) := by
    have h38 : (2:ℚ) ^ (38:ℤ) = 274877906944 := by norm_num
    rw [h38]
    apply one_div_lt_one_div_of_lt (by positivity)
    linarith
  have hspec : ⌊(p : ℚ) / (t : ℚ) * 100 * 100 + 1 / 2⌋ = (k : ℤ) := by
    rw [Int.floor_eq_iff]
    have : (p : ℚ) / (t : ℚ) * 100 * 100 + 1 / 2 = (k : ℚ) + (r : ℚ) / (2 * t) := by
      rw [← hx]; ring
    rw [this]
    push_cast
    have : (0:ℚ) < 1 / (2 * t) := by positivity
    constructor <;> linarith
  rw [hspec]
  rw [Int.floor_eq_iff]
  push_cast
  rcases Nat.eq_zero_or_pos p with hp0 | hp
  · subst hp0
    simp only [Nat.cast_zero, zero_div, roundDouble_zero, zero_mul, zero_add] at hx ⊢
    have : (0:ℚ) < 1 / (2 * t) := by positivity
    constructor <;> linarith
  · have herr := abs_lt.mp (scaled_ratio_error hp ht hpt)
    constructor <;> linarith [herr.1, herr.2]

/-! ## Reports: rows of `attendance-percent` -/

theorem attendancePercent_mem {s : Store} {c e : Option String} {row : AttendanceRow}
    (h : row ∈ attendancePercent s c e) :
    row.eventId ∈ (s.registrations.filter (attendanceFilter c e)).map (fun r => r.eventId)
    ∧ row.totalRegistered = ((s.registrations.filter (attendanceFilter c e)).filter
        (fun r => decide (r.eventId = row.eventId))).length
    ∧ row.presentCount = ((s.registrations.filter (attendanceFilter c e)).filter
        (fun r => decide (r.eventId = row.eventId))).countP
          (fun r => decide (r.attendanceStatus = some "present"))
    ∧ row.title = (Event.findByPk s row.eventId).map (fun ev => ev.title)
    ∧ row.attendancePercent = attendancePercentOf row.presentCount row.totalRegistered := by
  unfold attendancePercent groupKeys at h
  simp only [List.mem_map, List.mem_dedup] at h
  obtain ⟨k, ⟨r, hr, hk⟩, rfl⟩ := h
  refine ⟨?_, rfl, rfl, rfl, rfl⟩
  simp only [List.mem_map]
  exact ⟨r, hr, hk⟩

theorem tieStore_regs {r : Registration} (h : r ∈ tieStore.registrations) :
    r.eventId = "E1" ∧ r.collegeId = "C1"
      ∧ (r.attendanceStatus = some "present" ∨ r.attendanceStatus = some "absent") := by
  simp only [tieStore, List.mem_append, List.mem_map] at h
  rcases h with ⟨i, _, rfl⟩ | ⟨i, _, rfl⟩
  · exact ⟨rfl, rfl, Or.inl rfl⟩
  · exact ⟨rfl, rfl, Or.inr rfl⟩

theorem tieStore_report : attendancePercent tieStore none none
    = [⟨"E1", 800, 57, some "Quiz", attendancePercentOf 57 800⟩] := by
  have hf : tieStore.registrations.filter (attendanceFilter none none)
      = tieStore.registrations := by
    rw [List.filter_eq_self]; intro a _; rfl
  have hmap : tieStore.registrations.map (fun r => r.eventId) = List.replicate 800 "E1" := by
    rw [List.eq_replicate_iff]
    constructor
    · simp [tieStore]
    · intro b hb
      obtain ⟨r, hr, rfl⟩ := List.mem_map.mp hb
      exact (tieStore_regs hr).1
  have hkeys : groupKeys (fun r => r.eventId) tieStore.registrations = ["E1"] := by
    unfold groupKeys
    rw [hmap, List.replicate_dedup (by norm_num)]
  have hg : tieStore.registrations.filter (fun r => decide (r.eventId = "E1"))
      = tieStore.registrations := by
    rw [List.filter_eq_self]
    intro a ha
    simp [(tieStore_regs ha).1]
  have hlen : tieStore.registrations.length = 800 := by
    simp [tieStore]
  have hcnt : tieStore.registrations.countP
      (fun r => decide (r.attendanceStatus = some "present")) = 57 := by
    have h1 : ((List.range 57).map (tieReg "present")).countP
        (fun r => decide (r.attendanceStatus = some "present")) = 57 := by
      rw [List.countP_eq_length.mpr]
      · simp
      · intro a ha
        obtain ⟨i, _, rfl⟩ := List.mem_map.mp ha
        rfl
    have h2 : ((List.range 743).map (fun i => tieReg "absent" (57 + i))).countP
        (fun r => decide (r.attendanceStatus = some "present")) = 0 := by
      rw [List.countP_eq_zero]
      intro a ha
      obtain ⟨i, _, rfl⟩ := List.mem_map.mp ha
      simp [tieReg]
    show (List.countP _ (_ ++ _)) = 57
    rw [List.countP_append, h1, h2]
  unfold attendancePercent
  simp only [hf, hkeys, List.map_cons, List.map_nil, hg, hlen, hcnt]
  rfl

theorem attendancePercent_pos_total {s : Store} {c e : Option String} {row : AttendanceRow}
    (h : row ∈ attendancePercent s c e) :
    0 < row.totalRegistered ∧ row.presentCount ≤ row.totalRegistered := by
  obtain ⟨hk, ht, hp, _, _⟩ := attendancePercent_mem h
  rw [ht, hp]
  refine ⟨?_, List.countP_le_length _⟩
  obtain ⟨r, hr, hre⟩ := List.mem_map.mp hk
  apply List.length_pos_of_mem (a := r)
  simp [List.mem_filter, hre, List.mem_filter.mp hr]

theorem demoStore_attendance : attendancePercent demoStore none none
    = [⟨"E1", 3, 1, some "Quiz", attendancePercentOf 1 3⟩,
       ⟨"E3", 1, 1, some "Expo", attendancePercentOf 1 1⟩] := by
  rfl

/-- C1 (counterexample).  With 800 registrations of which 57 are present, the report
gives the Number `7.12`, while `57 / 800 * 100 = 7.125` rounded half-up to two decimal
places is `7.13`. -/
theorem attendancePercent_tie_counterexample :
    attendancePercent tieStore none none
        = [⟨"E1", 800, 57, some "Quiz", roundDouble (712 / 100)⟩]
      ∧ specAttendancePercent 57 800 = 713 / 100
      ∧ roundDouble (712 / 100) ≠ roundDouble (specAttendancePercent 57 800) := by
  refine ⟨?_, specAttendancePercent_57_800, ?_⟩
  · rw [tieStore_report, attendancePercentOf_57_800]
  · rw [specAttendancePercent_57_800]; exact roundDouble_712_ne

/-- C1 (amended).  Every row of the attendance-percent report has
`totalRegistered > 0`; when `totalRegistered ≤ 2 ^ 32` and
`presentCount / totalRegistered * 10000` is not half-way between two integers, its
`attendancePercent` is the Number nearest to the exact rational
`presentCount / totalRegistered * 100` rounded half-up to two decimal places; and the
expression of the code evaluates to `0` when `totalRegistered = 0`. -/
theorem attendancePercent_rounding (s : Store) (c e : Option String) (row : AttendanceRow)
    (hrow : row ∈ attendancePercent s c e) (hbig : row.totalRegistered ≤ 2 ^ 32)
    (htie : (20000 * row.presentCount + row.totalRegistered) % (2 * row.totalRegistered) ≠ 0) :
    0 < row.totalRegistered
      ∧ row.attendancePercent
          = roundDouble (specAttendancePercent row.presentCount row.totalRegistered)
      ∧ ∀ p : Nat, attendancePercentOf p 0 = 0 := by
  obtain ⟨hpos, hle⟩ := attendancePercent_pos_total hrow
  obtain ⟨_, _, _, _, hval⟩ := attendancePercent_mem hrow
  refine ⟨hpos, ?_, fun p => by simp [attendancePercentOf]⟩
  rw [hval]
  exact attendancePercentOf_eq_spec hpos hle hbig htie

theorem attendancePercent_rounding_witness :
    (⟨"E1", 3, 1, some "Quiz", attendancePercentOf 1 3⟩ : AttendanceRow)
        ∈ attendancePercent demoStore none none
      ∧ (0 < 3 ∧ attendancePercentOf 1 3 = roundDouble (specAttendancePercent 1 3)
          ∧ ∀ p : Nat, attendancePercentOf p 0 = 0) :=
  ⟨by rw [demoStore_attendance]; exact List.mem_cons_self _ _,
   attendancePercent_rounding demoStore none none
     ⟨"E1", 3, 1, some "Quiz", attendancePercentOf 1 3⟩
     (by rw [demoStore_attendance]; exact List.mem_cons_self _ _) (by norm_num) (by decide)⟩

/-! ## Seed script: the registration loop -/

theorem create_eq_createFresh {s : Store} {r : Registration}
    (h : ∀ x ∈ s.registrations, x.id ≠ r.id) :
    Registration.create s r = Registration.createFresh s r := by
  have hany : s.registrations.any (fun x => decide (x.id = r.id)) = false := by
    rw [List.any_eq_false]; intro x hx; simpa using h x hx
  unfold Registration.create Registration.createFresh Store.insertRegistration
    Store.insertRegistrationFresh
  simp only [hany, Bool.false_eq_true, if_false]

theorem createFresh_ids {s s1 : Store} {r : Registration}
    (h : Registration.createFresh s r = .ok s1) :
    ∀ x ∈ s1.registrations, x ∈ s.registrations ∨ x = r := by
  unfold Registration.createFresh Store.insertRegistrationFresh at h
  intro x hx
  split at h <;> (split_ifs at h <;> (try cases h)) <;>
    (simp only [List.mem_append, List.mem_singleton] at hx; exact hx)

theorem createIgnoringErrors_fresh (rs : List Registration) :
    ∀ s : Store, (rs.map (fun r => r.id)).Nodup →
      (∀ r ∈ rs, ∀ x ∈ s.registrations, x.id ≠ r.id) →
      createIgnoringErrors Registration.create s rs
        = createIgnoringErrors Registration.createFresh s rs := by
  induction rs with
  | nil => intro s _ _; rfl
  | cons r rest ih =>
    intro s hnd hfresh
    rw [List.map_cons, List.nodup_cons] at hnd
    have hr := hfresh r (List.mem_cons_self _ _)
    have hrest : ∀ q ∈ rest, ∀ x ∈ s.registrations, x.id ≠ q.id :=
      fun q hq => hfresh q (List.mem_cons_of_mem _ hq)
    unfold createIgnoringErrors
    rw [create_eq_createFresh hr]
    cases hc : Registration.createFresh s r with
    | error e => exact ih s hnd.2 hrest
    | ok s1 =>
      apply ih s1 hnd.2
      intro q hq x hx
      rcases createFresh_ids hc x hx with hx' | rfl
      · exact hrest q hq x hx'
      · intro heq
        exact hnd.1 (List.mem_map.mpr ⟨q, hq, heq.symm⟩)

theorem createFresh_accept {s : Store} {r : Registration} (hadm : r.admissible s = true)
    (hkey : ∀ x ∈ s.registrations, ¬ (x.eventId = r.eventId ∧ x.studentId = r.studentId)) :
    Registration.createFresh s r
      = .ok { s with registrations := s.registrations ++ [r] } := by
  unfold Registration.admissible at hadm
  simp only [Bool.and_eq_true] at hadm
  obtain ⟨⟨⟨hst, he⟩, hs⟩, hc⟩ := hadm
  have hany : s.registrations.any
      (fun x => decide (x.eventId = r.eventId ∧ x.studentId = r.studentId)) = false := by
    rw [List.any_eq_false]; intro x hx; simpa using hkey x hx
  have hins : s.insertRegistrationFresh r
      = .ok { s with registrations := s.registrations ++ [r] } := by
    unfold Store.insertRegistrationFresh
    rw [if_neg (by rw [hany]; simp), if_neg (by rw [he, hs, hc]; simp)]
  unfold Registration.createFresh
  split
  · next v hv =>
    rw [hv] at hst
    rw [if_pos (of_decide_eq_true hst), hins]
  · exact hins

theorem createFresh_reject {s : Store} {r : Registration}
    (hkey : ∃ x ∈ s.registrations, x.eventId = r.eventId ∧ x.studentId = r.studentId) :
    ∃ e, Registration.createFresh s r = .error e := by
  have hany : s.registrations.any
      (fun x => decide (x.eventId = r.eventId ∧ x.studentId = r.studentId)) = true := by
    rw [List.any_eq_true]
    obtain ⟨x, hx, h⟩ := hkey
    exact ⟨x, hx, by simpa using h⟩
  have hins : s.insertRegistrationFresh r = .error .uniqueConstraintError := by
    unfold Store.insertRegistrationFresh
    rw [if_pos hany]
  unfold Registration.createFresh
  split
  · next v _ =>
    by_cases hv : v ∈ attendanceStatuses
    · exact ⟨_, by rw [if_pos hv, hins]⟩
    · exact ⟨_, by rw [if_neg hv]⟩
  · exact ⟨_, hins⟩

theorem createIgnoringErrors_accept (rs : List Registration) :
    ∀ s : Store, (rs.map (fun r => (r.eventId, r.studentId))).Nodup →
      (∀ r ∈ rs, ∀ x ∈ s.registrations,
        ¬ (x.eventId = r.eventId ∧ x.studentId = r.studentId)) →
      (∀ r ∈ rs, r.admissible s = true) →
      createIgnoringErrors Registration.createFresh s rs
        = { s with registrations := s.registrations ++ rs } := by
  induction rs with
  | nil => intro s _ _ _; simp [createIgnoringErrors]
  | cons r rest ih =>
    intro s hnd hkey hadm
    rw [List.map_cons, List.nodup_cons] at hnd
    unfold createIgnoringErrors
    rw [createFresh_accept (hadm r (List.mem_cons_self _ _))
      (hkey r (List.mem_cons_self _ _))]
    simp only
    rw [ih _ hnd.2]
    · simp
    · intro q hq x hx
      simp only [List.mem_append, List.mem_singleton] at hx
      rcases hx with hx | rfl
      · exact hkey q (List.mem_cons_of_mem _ hq) x hx
      · intro h
        apply hnd.1
        exact List.mem_map.mpr ⟨q, hq, by simp [h.1, h.2]⟩
    · intro q hq
      exact hadm q (List.mem_cons_of_mem _ hq)

theorem createIgnoringErrors_reject (rs : List Registration) (s : Store)
    (hkey : ∀ r ∈ rs, ∃ x ∈ s.registrations,
      x.eventId = r.eventId ∧ x.studentId = r.studentId) :
    createIgnoringErrors Registration.createFresh s rs = s := by
  induction rs with
  | nil => rfl
  | cons r rest ih =>
    unfold createIgnoringErrors
    obtain ⟨e, he⟩ := createFresh_reject (hkey r (List.mem_cons_self _ _))
    rw [he]
    exact ih (fun q hq => hkey q (List.mem_cons_of_mem _ hq))

theorem createIgnoringErrors_append (f : Store → Registration → Except DbError Store)
    (as bs : List Registration) :
    ∀ s, createIgnoringErrors f s (as ++ bs)
      = createIgnoringErrors f (createIgnoringErrors f s as) bs := by
  induction as with
  | nil => intro s; rfl
  | cons a rest ih =>
    intro s
    simp only [List.cons_append, createIgnoringErrors]
    cases f s a <;> exact ih _

theorem regsWithIds_eraseId (uuid : Nat → String)
    (regs : List (String × String × String × String)) :
    (regsWithIds uuid regs).map Registration.eraseId = regsWithIds (fun _ => "") regs := by
  unfold regsWithIds
  rw [List.map_map]
  rfl

theorem regsWithIds_ids (uuid : Nat → String)
    (regs : List (String × String × String × String)) :
    (regsWithIds uuid regs).map (fun r => r.id) = (List.range regs.length).map uuid := by
  unfold regsWithIds
  rw [List.map_map]
  have : ((fun r : Registration => r.id) ∘ fun q : ℕ × String × String × String × String =>
      ({ id := uuid q.1, eventId := q.2.1, studentId := q.2.2.1, collegeId := q.2.2.2.1,
         attendanceStatus := some q.2.2.2.2 } : Registration)) = uuid ∘ Prod.fst := rfl
  rw [this, ← List.map_map, List.enum_map_fst]

theorem insertFeedback_tables {s s1 : Store} {f : Feedback} (h : s.insertFeedback f = .ok s1) :
    s1.registrations = s.registrations ∧ s1.events = s.events ∧ s1.students = s.students
      ∧ s1.colleges = s.colleges := by
  unfold Store.insertFeedback at h
  split_ifs at h
  cases h
  exact ⟨rfl, rfl, rfl, rfl⟩

theorem bulkCreate_tables (fs : List Feedback) :
    ∀ {s s1 : Store}, Feedback.bulkCreate s fs = .ok s1 →
      s1.registrations = s.registrations ∧ s1.events = s.events ∧ s1.students = s.students
        ∧ s1.colleges = s.colleges := by
  induction fs with
  | nil =>
    intro s s1 h
    cases h
    exact ⟨rfl, rfl, rfl, rfl⟩
  | cons f rest ih =>
    intro s s1 h
    unfold Feedback.bulkCreate at h
    rw [List.foldlM_cons] at h
    cases hf : s.insertFeedback f with
    | error e => rw [hf] at h; cases h
    | ok s2 =>
      rw [hf] at h
      obtain ⟨a, b, c, d⟩ := insertFeedback_tables hf
      obtain ⟨a1, b1, c1, d1⟩ := ih h
      exact ⟨a1.trans a, b1.trans b, c1.trans c, d1.trans d⟩

theorem seed_unfold (uuid : Nat → String) :
    seed uuid =
      match Feedback.bulkCreate
        (createIgnoringErrors Registration.create seedBase
          (regsWithIds uuid (seedRegs (seedStudents "C001"))))
        (seedFeedbacks uuid (seedStudents "C001")) with
      | .error _ => createIgnoringErrors Registration.create seedBase
          (regsWithIds uuid (seedRegs (seedStudents "C001")))
      | .ok s6 => s6 := by
  rfl

theorem eraseId_mem_take (uuid : Nat → String) (n : Nat) {r : Registration}
    (h : r ∈ (regsWithIds uuid (seedRegs (seedStudents "C001"))).take n) :
    r.eraseId ∈ (regsWithIds (fun _ => "") (seedRegs (seedStudents "C001"))).take n := by
  rw [← regsWithIds_eraseId uuid, ← List.map_take]
  exact List.mem_map_of_mem _ h

theorem eraseId_mem_drop (uuid : Nat → String) (n : Nat) {r : Registration}
    (h : r ∈ (regsWithIds uuid (seedRegs (seedStudents "C001"))).drop n) :
    r.eraseId ∈ (regsWithIds (fun _ => "") (seedRegs (seedStudents "C001"))).drop n := by
  rw [← regsWithIds_eraseId uuid, ← List.map_drop]
  exact List.mem_map_of_mem _ h

set_option maxRecDepth 100000 in
theorem seed_keys_nodup : (((regsWithIds (fun _ => "") (seedRegs (seedStudents "C001"))).take 24).map
    (fun r => (r.eventId, r.studentId))).Nodup := by
  decide!

set_option maxRecDepth 100000 in
theorem seed_admissible :
    ∀ r ∈ (regsWithIds (fun _ => "") (seedRegs (seedStudents "C001"))).take 24,
      r.admissible seedBase = true := by
  decide!

set_option maxRecDepth 100000 in
theorem seed_duplicates :
    ∀ r ∈ (regsWithIds (fun _ => "") (seedRegs (seedStudents "C001"))).drop 24,
      ∃ x ∈ (regsWithIds (fun _ => "") (seedRegs (seedStudents "C001"))).take 24,
        x.eventId = r.eventId ∧ x.studentId = r.studentId := by
  decide!

theorem admissible_eraseId (s : Store) (r : Registration) :
    r.eraseId.admissible s = r.admissible s := rfl

theorem seedBase_registrations : seedBase.registrations = [] := rfl

/-- The registration loop of the seed script keeps the first 24 rows of `regs` and
skips the last two, when the generated ids are pairwise different. -/
theorem seed_loop (uuid : Nat → String) (hnd : ((List.range 26).map uuid).Nodup) :
    createIgnoringErrors Registration.create seedBase
        (regsWithIds uuid (seedRegs (seedStudents "C001")))
      = { seedBase with
          registrations := (regsWithIds uuid (seedRegs (seedStudents "C001"))).take 24 } := by
  generalize hRS : regsWithIds uuid (seedRegs (seedStudents "C001")) = RS
  have hids : (RS.map (fun r => r.id)).Nodup := by
    rw [← hRS, regsWithIds_ids]; exact hnd
  have hfresh : createIgnoringErrors Registration.create seedBase RS
      = createIgnoringErrors Registration.createFresh seedBase RS := by
    apply createIgnoringErrors_fresh RS seedBase hids
    intro r _ x hx
    rw [seedBase_registrations] at hx
    cases hx
  have hkeys : ((RS.take 24).map (fun r => (r.eventId, r.studentId))).Nodup := by
    have h := seed_keys_nodup
    rw [← regsWithIds_eraseId uuid, hRS, ← List.map_take, List.map_map] at h
    exact h
  have hadm : ∀ r ∈ RS.take 24, r.admissible seedBase = true := by
    intro r hr
    rw [← hRS] at hr
    rw [← admissible_eraseId]
    exact seed_admissible _ (eraseId_mem_take uuid 24 hr)
  have hacc : createIgnoringErrors Registration.createFresh seedBase (RS.take 24)
      = { seedBase with registrations := seedBase.registrations ++ RS.take 24 } := by
    apply createIgnoringErrors_accept (RS.take 24) seedBase hkeys _ hadm
    intro r _ x hx
    rw [seedBase_registrations] at hx
    cases hx
  have hrej : createIgnoringErrors Registration.createFresh
      { seedBase with registrations := seedBase.registrations ++ RS.take 24 } (RS.drop 24)
      = { seedBase with registrations := seedBase.registrations ++ RS.take 24 } := by
    apply createIgnoringErrors_reject
    intro r hr
    rw [← hRS] at hr
    obtain ⟨x, hx, hk⟩ := seed_duplicates _ (eraseId_mem_drop uuid 24 hr)
    rw [← regsWithIds_eraseId uuid, hRS, ← List.map_take] at hx
    obtain ⟨y, hy, rfl⟩ := List.mem_map.mp hx
    refine ⟨y, ?_, hk⟩
    show y ∈ seedBase.registrations ++ RS.take 24
    rw [seedBase_registrations]
    exact hy
  rw [hfresh]
  conv_lhs => rw [← List.take_append_drop 24 RS]
  rw [createIgnoringErrors_append, hacc, hrej, seedBase_registrations]
  rfl

theorem seed_tables (uuid : Nat → String) (hnd : ((List.range 26).map uuid).Nodup) :
    (seed uuid).registrations = (regsWithIds uuid (seedRegs (seedStudents "C001"))).take 24
      ∧ (seed uuid).events = seedBase.events ∧ (seed uuid).students = seedBase.students := by
  rw [seed_unfold, seed_loop uuid hnd]
  split
  · exact ⟨rfl, rfl, rfl⟩
  · next s6 h =>
    obtain ⟨a, b, c, _⟩ := bulkCreate_tables _ h
    exact ⟨a, b, c⟩

theorem attendancePercent_eraseId (s : Store) (c e : Option String) :
    attendancePercent s c e
      = attendancePercent ⟨[], [], s.events, s.registrations.map Registration.eraseId, []⟩ c e := by
  have hf : ∀ l : List Registration,
      (l.map Registration.eraseId).filter (attendanceFilter c e)
        = (l.filter (attendanceFilter c e)).map Registration.eraseId := by
    intro l; rw [List.filter_map]; rfl
  have hg : ∀ (k : String) (l : List Registration),
      (l.map Registration.eraseId).filter (fun r => decide (r.eventId = k))
        = (l.filter (fun r => decide (r.eventId = k))).map Registration.eraseId := by
    intro k l; rw [List.filter_map]; rfl
  unfold attendancePercent groupKeys Event.findByPk
  simp only [hf, hg, List.map_map, List.length_map, List.countP_map]
  rfl

theorem seed_report_closed (c e : Option String) (hc : c = none ∨ c = some "C001")
    (he : e = none ∨ e = some "E001") :
    (attendancePercent ⟨[], [], seedBase.events,
      (regsWithIds (fun _ => "") (seedRegs (seedStudents "C001"))).take 24, []⟩ c e).filter
        (fun row => decide (row.eventId = "E001"))
      = [⟨"E001", 14, 6, some "AI Workshop", attendancePercentOf 6 14⟩] := by
  rcases hc with rfl | rfl <;> rcases he with rfl | rfl <;> rfl

theorem attendancePercentOf_6_14 : attendancePercentOf 6 14 = roundDouble (4286 / 100) := by
  rw [attendancePercentOf_eq_spec (by norm_num) (by norm_num) (by norm_num) (by decide)]
  unfold specAttendancePercent roundHalfUp2
  rw [if_neg (by norm_num)]
  have : ⌊((6:ℕ) : ℚ) / ((14:ℕ) : ℚ) * 100 * 100 + 1 / 2⌋ = 4286 := by
    rw [Int.floor_eq_iff]; constructor <;> norm_num
  rw [this]; norm_num

set_option maxRecDepth 100000 in
theorem seed_S005_E001_closed :
    ((regsWithIds (fun _ => "") (seedRegs (seedStudents "C001"))).take 24).countP
      (fun r => decide (r.eventId = "E001" ∧ r.studentId = "S005")) = 1 := by
  decide!

/-- C3.  When the ids drawn from `genUUID` for the 26 elements of `regs` are pairwise
different, the store left by the seed script holds exactly one Registration of S005 for
E001 (the later duplicate is rejected), and the attendance-percent report, unfiltered
or filtered to college C001 and/or event E001, has exactly one row for E001, with
`totalRegistered = 14`, `presentCount = 6` and `attendancePercent` the Number `42.86`. -/
theorem seed_attendance_E001 (uuid : Nat → String) (hnd : ((List.range 26).map uuid).Nodup)
    (c e : Option String) (hc : c = none ∨ c = some "C001")
    (he : e = none ∨ e = some "E001") :
    (attendancePercent (seed uuid) c e).filter (fun row => decide (row.eventId = "E001"))
        = [⟨"E001", 14, 6, some "AI Workshop", roundDouble (4286 / 100)⟩]
      ∧ (seed uuid).registrations.countP
          (fun r => decide (r.eventId = "E001" ∧ r.studentId = "S005")) = 1 := by
  obtain ⟨hregs, hev, _⟩ := seed_tables uuid hnd
  have herase : (seed uuid).registrations.map Registration.eraseId
      = (regsWithIds (fun _ => "") (seedRegs (seedStudents "C001"))).take 24 := by
    rw [hregs, List.map_take, regsWithIds_eraseId]
  constructor
  · rw [attendancePercent_eraseId, hev, herase, seed_report_closed c e hc he,
      attendancePercentOf_6_14]
  · rw [← seed_S005_E001_closed, ← herase, List.countP_map]
    rfl

set_option maxRecDepth 100000 in
theorem seed_attendance_E001_witness :
    ((List.range 26).map sampleUuid).Nodup
      ∧ (attendancePercent (seed sampleUuid) none none).filter
          (fun row => decide (row.eventId = "E001"))
        = [⟨"E001", 14, 6, some "AI Workshop", roundDouble (4286 / 100)⟩] :=
  ⟨by decide!,
   (seed_attendance_E001 sampleUuid (by decide!) none none (Or.inl rfl) (Or.inl rfl)).1⟩

/-! ## Report `event-popularity` -/

/-- The sizes of the groups of a `GROUP BY` add up to the number of grouped rows. -/
theorem sum_group_sizes {α : Type} (key : α → String) (rows : List α) :
    ((groupKeys key rows).map
      (fun k => (rows.filter (fun r => decide (key r = k))).length)).sum = rows.length := by
  have h := List.sum_map_count_dedup_eq_length (rows.map key)
  rw [List.length_map] at h
  rw [← h]
  unfold groupKeys
  congr 1
  apply List.map_congr_left
  intro k _
  rw [List.count, List.countP_map, List.countP_eq_length_filter]
  congr 1

theorem joinEvents_length (events : List Event) (p : Registration → Bool)
    (hid : (events.map (fun e => e.id)).Nodup) (regs : List Registration)
    (hfk : ∀ r ∈ regs, ∃ e ∈ events, e.id = r.eventId) :
    ((regs.flatMap (fun r =>
        (events.filter (fun e => decide (r.eventId = e.id))).map (fun e => (r, e)))).filter
      (fun q => p q.1)).length = regs.countP p := by
  induction regs with
  | nil => rfl
  | cons r rest ih =>
    have hone : (events.filter (fun e => decide (r.eventId = e.id))).length = 1 := by
      obtain ⟨e, he, hre⟩ := hfk r (List.mem_cons_self _ _)
      have hc : (events.map (fun e => e.id)).count r.eventId = 1 :=
        List.count_eq_one_of_mem hid (List.mem_map.mpr ⟨e, he, hre⟩)
      rw [List.count, List.countP_map, List.countP_eq_length_filter] at hc
      rw [← hc]
      congr 1
      apply List.filter_congr
      intro x _
      show decide (r.eventId = x.id) = (x.id == r.eventId)
      by_cases h : x.id = r.eventId
      · simp [h]
      · simp [h, Ne.symm h]
    obtain ⟨e, he⟩ := List.length_eq_one.mp hone
    rw [List.flatMap_cons, List.filter_append, List.length_append,
      ih (fun q hq => hfk q (List.mem_cons_of_mem _ hq)), he, List.countP_cons]
    by_cases hp : p r = true
    · simp [hp, Nat.add_comm]
    · simp [hp]

/-- C2 (counterexample).  In a state that satisfies every declared constraint (event
ids are unique, every Registration names a stored Event) and has a college with the
empty string as id, `collegeId = ""` is falsy, the report is not filtered, and its counts
add up to 2 while one Registration has that `collegeId`. -/
theorem eventPopularity_sum_counterexample :
    ((eventPopularity emptyIdStore (some "")).map (fun row => row.registrations)).sum = 2
      ∧ emptyIdStore.registrations.countP (fun r => decide (r.collegeId = "")) = 1
      ∧ (emptyIdStore.events.map (fun e => e.id)).Nodup
      ∧ ∀ r ∈ emptyIdStore.registrations, ∃ e ∈ emptyIdStore.events, e.id = r.eventId := by
  decide

/-- C2 (amended).  In every state in which event ids are unique and every Registration
names an existing Event, and for every non-empty college id `C`, the `registrations`
fields of the rows of event-popularity with `collegeId = C` add up to the number of
Registrations whose `collegeId` is `C`. -/
theorem eventPopularity_sum (s : Store) (C : String) (hC : C ≠ "")
    (hid : (s.events.map (fun e => e.id)).Nodup)
    (hfk : ∀ r ∈ s.registrations, ∃ e ∈ s.events, e.id = r.eventId) :
    ((eventPopularity s (some C)).map (fun row => row.registrations)).sum
      = s.registrations.countP (fun r => decide (r.collegeId = C)) := by
  unfold eventPopularity
  simp only
  rw [(List.perm_insertionSort _ _).map _ |>.sum_eq, List.map_map]
  have hsum := sum_group_sizes (fun p : Registration × Event => p.1.eventId)
    ((joinEvents s).filter
      (fun p => !truthy (some C) || decide (some p.1.collegeId = some C)))
  rw [show ((fun row : PopularityRow => row.registrations) ∘ fun k =>
      ({ eventId := k,
         title := (((joinEvents s).filter
            (fun p => !truthy (some C) || decide (some p.1.collegeId = some C))).filter
              (fun p => decide (p.1.eventId = k))).head?.map (fun p => p.2.title),
         registrations := (((joinEvents s).filter
            (fun p => !truthy (some C) || decide (some p.1.collegeId = some C))).filter
              (fun p => decide (p.1.eventId = k))).length } : PopularityRow))
      = fun k => (((joinEvents s).filter
            (fun p => !truthy (some C) || decide (some p.1.collegeId = some C))).filter
              (fun p => decide (p.1.eventId = k))).length from rfl, hsum]
  have hlen := joinEvents_length s.events
    (fun r => !truthy (some C) || decide (some r.collegeId = some C)) hid s.registrations hfk
  unfold joinEvents
  rw [hlen]
  apply List.countP_congr
  intro r _
  simp [truthy, hC]

theorem eventPopularity_sum_witness :
    ((eventPopularity demoStore (some "C1")).map (fun row => row.registrations)).sum
      = demoStore.registrations.countP (fun r => decide (r.collegeId = "C1")) :=
  eventPopularity_sum demoStore "C1" (by decide) (by decide) (by decide)

/-! ## Reports `attendance-percent` without registrations, and `avg-feedback` -/

/-- C4 (counterexample).  Event E2 of `demoStore` is stored and has no Registration; the
unfiltered report has rows for E1 and E3 only, and the report filtered to E2 is empty. -/
theorem attendancePercent_zero_counterexample :
    (Event.findByPk demoStore "E2").map (fun e => e.id) = some "E2"
      ∧ demoStore.registrations.countP (fun r => decide (r.eventId = "E2")) = 0
      ∧ (attendancePercent demoStore none none).map (fun row => row.eventId) = ["E1", "E3"]
      ∧ (attendancePercent demoStore none (some "E2")).length = 0 := by
  decide

/-- C4 (amended).  For every state and every event id `E` that no Registration names,
the attendance-percent report, under any filter, is computed and has no row for `E`;
filtered to a non-empty `eventId = E` it is empty. -/
theorem attendancePercent_no_row (s : Store) (E : String)
    (hzero : ∀ r ∈ s.registrations, r.eventId ≠ E) :
    (∀ (c e : Option String), ∀ row ∈ attendancePercent s c e, row.eventId ≠ E)
      ∧ ∀ c : Option String, E ≠ "" → attendancePercent s c (some E) = [] := by
  have hrows : ∀ (c e : Option String), ∀ row ∈ attendancePercent s c e, row.eventId ≠ E := by
    intro c e row hrow
    obtain ⟨hk, _⟩ := attendancePercent_mem hrow
    obtain ⟨r, hr, hre⟩ := List.mem_map.mp hk
    rw [← hre]
    exact hzero r (List.mem_filter.mp hr).1
  refine ⟨hrows, ?_⟩
  intro c hE
  rw [List.eq_nil_iff_forall_not_mem]
  intro row hrow
  obtain ⟨hk, _⟩ := attendancePercent_mem hrow
  obtain ⟨r, hr, _⟩ := List.mem_map.mp hk
  have hf := (List.mem_filter.mp hr).2
  have hin := (List.mem_filter.mp hr).1
  unfold attendanceFilter at hf
  simp only [truthy, Bool.and_eq_true, Bool.or_eq_true, Bool.not_eq_true', decide_eq_false_iff_not,
    decide_eq_true_eq, Option.some.injEq, ne_eq, not_not] at hf
  rcases hf.2 with h | h
  · exact hE h
  · exact hzero r hin h

theorem attendancePercent_no_row_witness :
    (∀ r ∈ demoStore.registrations, r.eventId ≠ "E2")
      ∧ attendancePercent demoStore none (some "E2") = [] :=
  ⟨by decide,
   (attendancePercent_no_row demoStore "E2" (by decide)).2 none (by decide)⟩

theorem isDouble_one : IsDouble 1 := ⟨1, 0, by norm_num, by norm_num⟩
theorem isDouble_five : IsDouble 5 := ⟨5, 0, by norm_num, by norm_num⟩
theorem isDouble_100 : IsDouble 100 := ⟨100, 0, by norm_num, by norm_num⟩
theorem isDouble_500 : IsDouble 500 := ⟨500, 0, by norm_num, by norm_num⟩

theorem sum_ratings_bounds (l : List Int) (h : ∀ x ∈ l, 1 ≤ x ∧ x ≤ 5) :
    (l.length : ℤ) ≤ l.sum ∧ l.sum ≤ 5 * (l.length : ℤ) := by
  induction l with
  | nil => simp
  | cons a rest ih =>
    have ha := h a (List.mem_cons_self _ _)
    have := ih (fun x hx => h x (List.mem_cons_of_mem _ hx))
    simp only [List.length_cons, List.sum_cons, Nat.cast_add, Nat.cast_one]
    constructor <;> omega

/-- The rounded average of a non-empty list of ratings in `[1, 5]` lies in `[1, 5]`. -/
theorem avgRatingOf_bounds (l : List Int) (hne : l ≠ []) (h : ∀ x ∈ l, 1 ≤ x ∧ x ≤ 5) :
    1 ≤ avgRatingOf l ∧ avgRatingOf l ≤ 5 := by
  obtain ⟨hlo, hhi⟩ := sum_ratings_bounds l h
  have hn : (0:ℚ) < (l.length : ℚ) := by
    have : 0 < l.length := List.length_pos.mpr hne
    exact_mod_cast this
  have hloq : (l.length : ℚ) ≤ (l.sum : ℚ) := by exact_mod_cast hlo
  have hhiq : (l.sum : ℚ) ≤ 5 * (l.length : ℚ) := by exact_mod_cast hhi
  have q1 : (1:ℚ) ≤ (l.sum : ℚ) / (l.length : ℚ) := by
    rw [le_div_iff₀ hn]; linarith
  have q5 : (l.sum : ℚ) / (l.length : ℚ) ≤ 5 := by
    rw [div_le_iff₀ hn]; linarith
  have y1lo := le_roundDouble_of_le (by norm_num) q1 isDouble_one
  have y1hi := roundDouble_le_of_le (by linarith) q5 isDouble_five
  have y2lo := le_roundDouble_of_le (a := 100)
    (x := roundDouble ((l.sum : ℚ) / (l.length : ℚ)) * 100) (by norm_num) (by linarith)
    isDouble_100
  have y2hi := roundDouble_le_of_le (a := 500)
    (x := roundDouble ((l.sum : ℚ) / (l.length : ℚ)) * 100) (by linarith) (by linarith)
    isDouble_500
  have hk : ∀ y : ℚ, 100 ≤ y → y ≤ 500 →
      (100:ℚ) ≤ (jsRound y : ℚ) ∧ (jsRound y : ℚ) ≤ 500 := by
    intro y h1 h2
    have klo : (100 : ℤ) ≤ jsRound y := by
      unfold jsRound
      rw [Int.le_floor]; push_cast; linarith
    have khi : jsRound y ≤ 500 := by
      unfold jsRound
      have : ⌊y + 1 / 2⌋ < 501 := by
        rw [Int.floor_lt]; push_cast; linarith
      omega
    exact ⟨by exact_mod_cast klo, by exact_mod_cast khi⟩
  obtain ⟨kloq, khiq⟩ := hk _ y2lo y2hi
  unfold avgRatingOf
  constructor
  · apply le_roundDouble_of_le (by norm_num) _ isDouble_one
    rw [le_div_iff₀ (by norm_num)]; linarith
  · apply roundDouble_le_of_le _ _ isDouble_five
    · apply div_pos _ (by norm_num); linarith
    · rw [div_le_iff₀ (by norm_num)]; linarith

theorem avgFeedback_mem {s : Store} {c : Option String} {row : FeedbackRow}
    (h : row ∈ avgFeedback s c) :
    ∃ f ∈ s.feedbacks, f.eventId = row.eventId
      ∧ (!truthy c || decide (some f.collegeId = c)) = true
      ∧ f ∈ (s.feedbacks.filter
          (fun f => !truthy c || decide (some f.collegeId = c))).filter
            (fun f => decide (f.eventId = row.eventId))
      ∧ row.avgRating = avgRatingOf (((s.feedbacks.filter
          (fun f => !truthy c || decide (some f.collegeId = c))).filter
            (fun f => decide (f.eventId = row.eventId))).map (fun f => f.rating))
      ∧ row.feedbackCount = ((s.feedbacks.filter
          (fun f => !truthy c || decide (some f.collegeId = c))).filter
            (fun f => decide (f.eventId = row.eventId))).length
      ∧ row.title = (Event.findByPk s row.eventId).map (fun e => e.title) := by
  unfold avgFeedback groupKeys at h
  simp only [List.mem_map, List.mem_dedup] at h
  obtain ⟨k, ⟨f, hf, hk⟩, rfl⟩ := h
  refine ⟨f, (List.mem_filter.mp hf).1, hk, (List.mem_filter.mp hf).2, ?_, rfl, rfl, rfl⟩
  exact List.mem_filter.mpr ⟨hf, by simpa using hk⟩

theorem demoStore_avgFeedback : avgFeedback demoStore none
    = [⟨"E1", avgRatingOf [5, 4], 2, some "Quiz"⟩, ⟨"E3", avgRatingOf [3], 1, some "Expo"⟩] := by
  rfl

/-- C5.  When every stored rating is an integer in `[1, 5]`, every row of avg-feedback
has `feedbackCount > 0` and `1 ≤ avgRating ≤ 5` (the value after rounding), and its
event has a Feedback row: an event without feedback does not appear. -/
theorem avgFeedback_rows (s : Store) (c : Option String)
    (hrating : ∀ f ∈ s.feedbacks, 1 ≤ f.rating ∧ f.rating ≤ 5)
    (row : FeedbackRow) (hrow : row ∈ avgFeedback s c) :
    0 < row.feedbackCount ∧ 1 ≤ row.avgRating ∧ row.avgRating ≤ 5
      ∧ ∃ f ∈ s.feedbacks, f.eventId = row.eventId := by
  obtain ⟨f, hf, hfe, _, hg, havg, hcnt, _⟩ := avgFeedback_mem hrow
  have hne : ((s.feedbacks.filter
      (fun f => !truthy c || decide (some f.collegeId = c))).filter
        (fun f => decide (f.eventId = row.eventId))).map (fun f => f.rating) ≠ [] := by
    intro h
    rw [List.map_eq_nil_iff] at h
    rw [h] at hg
    cases hg
  have hb := avgRatingOf_bounds _ hne (by
    intro x hx
    obtain ⟨g, hgm, rfl⟩ := List.mem_map.mp hx
    exact hrating g (List.mem_filter.mp (List.mem_filter.mp hgm).1).1)
  refine ⟨?_, ?_, ?_, f, hf, hfe⟩
  · rw [hcnt]; exact List.length_pos_of_mem hg
  · rw [havg]; exact hb.1
  · rw [havg]; exact hb.2

theorem avgFeedback_rows_witness :
    (∀ f ∈ demoStore.feedbacks, 1 ≤ f.rating ∧ f.rating ≤ 5)
      ∧ (0 < 2 ∧ 1 ≤ avgRatingOf [5, 4] ∧ avgRatingOf [5, 4] ≤ 5
        ∧ ∃ f ∈ demoStore.feedbacks, f.eventId = "E1") :=
  ⟨by decide,
   avgFeedback_rows demoStore none (by decide) ⟨"E1", avgRatingOf [5, 4], 2, some "Quiz"⟩
     (by rw [demoStore_avgFeedback]; exact List.mem_cons_self _ _)⟩

/-! ## Reports `student-participation` and `top-active-students` -/

theorem studentParticipation_mem {s : Store} {c : Option String} {p : ParticipationRow} :
    p ∈ studentParticipation s c ↔
      p.studentId ∈ groupKeys (fun r => r.studentId) (s.registrations.filter (collegeFilter c))
      ∧ p.eventsRegistered = ((s.registrations.filter (collegeFilter c)).filter
          (fun r => decide (r.studentId = p.studentId))).length
      ∧ p.eventsAttended = ((s.registrations.filter (collegeFilter c)).filter
          (fun r => decide (r.studentId = p.studentId))).countP
            (fun r => decide (r.attendanceStatus = some "present"))
      ∧ p.studentRoll = (Student.findByPk s p.studentId).map (fun st => st.studentRoll)
      ∧ p.name = (Student.findByPk s p.studentId).bind (fun st => st.name) := by
  unfold studentParticipation
  simp only [List.mem_map]
  constructor
  · rintro ⟨q, hq, rfl⟩
    rw [(List.perm_insertionSort _ _).mem_iff] at hq
    obtain ⟨k, hk, rfl⟩ := List.mem_map.mp hq
    exact ⟨hk, rfl, rfl, rfl, rfl⟩
  · rintro ⟨hk, h1, h2, h3, h4⟩
    refine ⟨(p.studentId, p.eventsRegistered, p.eventsAttended), ?_, ?_⟩
    · rw [(List.perm_insertionSort _ _).mem_iff]
      exact List.mem_map.mpr ⟨p.studentId, hk, by rw [← h1, ← h2]⟩
    · cases p
      simp only at h3 h4 ⊢
      rw [← h3, ← h4]

/-- C6.  For every state and college filter, top-active-students returns at most 3
rows; each returned row has the `studentId`, `eventsAttended` (as `attended`),
`studentRoll` and `name` of a row of student-participation under the same filter; the
rows are in non-increasing order of `attended`; and a student of student-participation
who is not returned has no larger `eventsAttended` than any returned row. -/
theorem topActiveStudents_spec (s : Store) (c : Option String) :
    (topActiveStudents s c).length ≤ 3
      ∧ (∀ t ∈ topActiveStudents s c, ∃ p ∈ studentParticipation s c,
          p.studentId = t.studentId ∧ p.eventsAttended = t.attended
            ∧ p.studentRoll = t.studentRoll ∧ p.name = t.name)
      ∧ (topActiveStudents s c).Pairwise (fun a b => b.attended ≤ a.attended)
      ∧ (∀ p ∈ studentParticipation s c,
          (∀ t ∈ topActiveStudents s c, t.studentId ≠ p.studentId) →
            ∀ t ∈ topActiveStudents s c, p.eventsAttended ≤ t.attended) := by
  haveI : IsTotal (String × ℕ) (fun a b => b.2 ≤ a.2) := ⟨fun a b => le_total _ _⟩
  haveI : IsTrans (String × ℕ) (fun a b => b.2 ≤ a.2) := ⟨fun a b c h1 h2 => le_trans h2 h1⟩
  -- the grouped rows of the query and their sorted list
  generalize hG : (groupKeys (fun r => r.studentId)
      (s.registrations.filter (collegeFilter c))).map (fun k =>
        (k, ((s.registrations.filter (collegeFilter c)).filter
          (fun r => decide (r.studentId = k))).countP
            (fun r => decide (r.attendanceStatus = some "present")))) = G
  have hsorted : (G.insertionSort (fun a b => b.2 ≤ a.2)).Sorted (fun a b => b.2 ≤ a.2) :=
    List.sorted_insertionSort _ G
  have hperm := List.perm_insertionSort (fun a b : String × ℕ => b.2 ≤ a.2) G
  have htop : topActiveStudents s c
      = ((G.insertionSort (fun a b => b.2 ≤ a.2)).take 3).map (fun q =>
          ({ studentId := q.1, attended := q.2,
             studentRoll := (Student.findByPk s q.1).map (fun st => st.studentRoll),
             name := (Student.findByPk s q.1).bind (fun st => st.name) } : TopRow)) := by
    rw [← hG]; rfl
  have hGmem : ∀ q ∈ G, q.1 ∈ groupKeys (fun r => r.studentId)
        (s.registrations.filter (collegeFilter c))
      ∧ q.2 = ((s.registrations.filter (collegeFilter c)).filter
          (fun r => decide (r.studentId = q.1))).countP
            (fun r => decide (r.attendanceStatus = some "present")) := by
    intro q hq
    rw [← hG] at hq
    obtain ⟨k, hk, rfl⟩ := List.mem_map.mp hq
    exact ⟨hk, rfl⟩
  have hsplit := List.take_append_drop 3 (G.insertionSort (fun a b => b.2 ≤ a.2))
  refine ⟨?_, ?_, ?_, ?_⟩
  · rw [htop, List.length_map]; exact List.length_take_le _ _
  · intro t ht
    rw [htop] at ht
    obtain ⟨q, hq, rfl⟩ := List.mem_map.mp ht
    obtain ⟨hk, hcnt⟩ := hGmem q (hperm.mem_iff.mp (List.mem_of_mem_take hq))
    refine ⟨⟨q.1, ((s.registrations.filter (collegeFilter c)).filter
        (fun r => decide (r.studentId = q.1))).length, q.2,
        (Student.findByPk s q.1).map (fun st => st.studentRoll),
        (Student.findByPk s q.1).bind (fun st => st.name)⟩,
      studentParticipation_mem.mpr ⟨hk, rfl, hcnt, rfl, rfl⟩, rfl, rfl, rfl, rfl⟩
  · rw [htop]
    apply List.Pairwise.map _ _ (hsorted.sublist (List.take_sublist _ _))
    intro a b h
    exact h
  · intro p hp hnot t ht
    obtain ⟨hk, _, hcnt, _, _⟩ := studentParticipation_mem.mp hp
    have hpG : (p.studentId, p.eventsAttended) ∈ G := by
      rw [← hG]
      exact List.mem_map.mpr ⟨p.studentId, hk, by rw [hcnt]⟩
    have hpS : (p.studentId, p.eventsAttended) ∈
        (G.insertionSort (fun a b => b.2 ≤ a.2)).take 3
          ++ (G.insertionSort (fun a b => b.2 ≤ a.2)).drop 3 := by
      rw [hsplit]; exact hperm.mem_iff.mpr hpG
    rw [htop] at ht hnot
    obtain ⟨q, hq, rfl⟩ := List.mem_map.mp ht
    rcases List.mem_append.mp hpS with h | h
    · exact absurd rfl (hnot _ (List.mem_map.mpr ⟨_, h, rfl⟩))
    · have hpw : ((G.insertionSort (fun a b => b.2 ≤ a.2)).take 3
          ++ (G.insertionSort (fun a b => b.2 ≤ a.2)).drop 3).Pairwise
            (fun a b => b.2 ≤ a.2) := by
        rw [hsplit]; exact hsorted
      exact (List.pairwise_append.mp hpw).2.2 q hq _ h

/-! ## Write handlers `POST /register` and `POST /feedback` -/

theorem truthy_some {v : Option String} (h : truthy v = true) :
    ∃ x, v = some x ∧ x ≠ "" := by
  cases v with
  | none => simp [truthy] at h
  | some x => exact ⟨x, rfl, by simpa [truthy] using h⟩

theorem insertRegistration_ok {s s1 : Store} {r : Registration}
    (h : s.insertRegistration r = .ok s1) :
    s1 = { s with registrations := s.registrations ++ [r] }
      ∧ (∀ x ∈ s.registrations, ¬ (x.eventId = r.eventId ∧ x.studentId = r.studentId))
      ∧ (∃ e ∈ s.events, e.id = r.eventId) ∧ (∃ st ∈ s.students, st.id = r.studentId) := by
  unfold Store.insertRegistration at h
  split_ifs at h with h1 h2 h3
  cases h
  refine ⟨rfl, ?_, ?_, ?_⟩
  · intro x hx hk
    apply h2
    rw [List.any_eq_true]
    exact ⟨x, hx, by simpa using hk⟩
  · have := h3.1
    rw [List.any_eq_true] at this
    obtain ⟨e, he, hid⟩ := this
    exact ⟨e, he, by simpa using hid⟩
  · have := h3.2.1
    rw [List.any_eq_true] at this
    obtain ⟨e, he, hid⟩ := this
    exact ⟨e, he, by simpa using hid⟩

theorem registrationCreate_ok {s s1 : Store} {r : Registration}
    (h : Registration.create s r = .ok s1) : s.insertRegistration r = .ok s1 := by
  unfold Registration.create at h
  split at h
  · split_ifs at h; exact h
  · exact h

theorem insertStudent_ok {s s1 : Store} {st : Student} (h : s.insertStudent st = .ok s1) :
    s1 = { s with students := s.students ++ [st] } := by
  unfold Store.insertStudent at h
  split_ifs at h
  cases h
  rfl

theorem studentCreate_ok {isEmail : String → Bool} {s s1 : Store} {st : Student}
    (h : Student.create isEmail s st = .ok s1) :
    s1 = { s with students := s.students ++ [st] } := by
  unfold Student.create at h
  split at h
  · split_ifs at h; exact insertStudent_ok h
  · exact insertStudent_ok h

/-- What a `201` response of `POST /register` says about the request and the states. -/
theorem register_created {isEmail : String → Bool} {s s1 : Store} {body : RegisterBody}
    {u1 u2 : String} {reg : Registration}
    (h : register isEmail s body u1 u2 = (.json 201 reg, s1)) :
    ∃ (eventId studentRoll collegeId : String) (event : Event) (st : Student) (s0 : Store),
      body.eventId = some eventId ∧ eventId ≠ ""
      ∧ body.studentRoll = some studentRoll ∧ studentRoll ≠ ""
      ∧ body.collegeId = some collegeId ∧ collegeId ≠ ""
      ∧ Event.findByPk s eventId = some event ∧ event.state = some "published"
      ∧ ((Student.findOne s studentRoll collegeId = some st ∧ s0 = s)
          ∨ (Student.findOne s studentRoll collegeId = none
              ∧ st = { id := u1, studentRoll := studentRoll, name := body.name,
                       email := body.email, collegeId := collegeId }
              ∧ s0 = { s with students := s.students ++ [st] }))
      ∧ reg = { id := u2, eventId := eventId, studentId := st.id, collegeId := collegeId,
                attendanceStatus := some "registered" }
      ∧ s0.insertRegistration reg = .ok s1 := by
  unfold register at h
  split_ifs at h with hreq
  · obtain ⟨ev, hev, hev0⟩ := truthy_some hreq.1
    obtain ⟨roll, hroll, hroll0⟩ := truthy_some hreq.2.1
    obtain ⟨cid, hcid, hcid0⟩ := truthy_some hreq.2.2
    simp only [hev, hroll, hcid, Option.getD_some] at h
    split at h
    · cases h
    · next event hfind =>
      split_ifs at h with hstate
      · cases h
      · have hpub := not_not.mp hstate
        split at h
        · next e hfound =>
          unfold registerCatch at h
          split_ifs at h <;> cases h
        · next student s0 hfound =>
          split at h
          · next e hcreate =>
            unfold registerCatch at h
            split_ifs at h <;> cases h
          · next s2 hcreate =>
            simp only [Prod.mk.injEq, Reply.json.injEq, true_and] at h
            obtain ⟨hreg, hs⟩ := h
            subst hs
            refine ⟨ev, roll, cid, event, student, s0, hev, hev0, hroll, hroll0, hcid, hcid0,
              hfind, hpub, ?_, hreg.symm, ?_⟩
            · split at hfound
              · next st hst =>
                simp only [Except.ok.injEq, Prod.mk.injEq] at hfound
                obtain ⟨rfl, rfl⟩ := hfound
                exact Or.inl ⟨hst, rfl⟩
              · next hst =>
                cases hc : Student.create isEmail s
                    { id := u1, studentRoll := roll, name := body.name, email := body.email,
                      collegeId := cid } with
                | error e => rw [hc] at hfound; cases hfound
                | ok s3 =>
                  rw [hc] at hfound
                  simp only [Except.map, Except.ok.injEq, Prod.mk.injEq] at hfound
                  obtain ⟨rfl, rfl⟩ := hfound
                  exact Or.inr ⟨hst, rfl, studentCreate_ok hc⟩
            · rw [← hreg]
              exact registrationCreate_ok hcreate
  · cases h

theorem truthy_of_some {x : String} (h : x ≠ "") : truthy (some x) = true := by
  simp [truthy, h]

/-- A request for a published event by a known student who already holds a Registration
for it is answered `409`, and nothing is written. -/
theorem register_conflict {isEmail : String → Bool} {s : Store} {body : RegisterBody}
    {u1 u2 ev roll cid : String} {event : Event} {st : Student}
    (hev : body.eventId = some ev) (hev0 : ev ≠ "")
    (hroll : body.studentRoll = some roll) (hroll0 : roll ≠ "")
    (hcid : body.collegeId = some cid) (hcid0 : cid ≠ "")
    (hfind : Event.findByPk s ev = some event) (hpub : event.state = some "published")
    (hst : Student.findOne s roll cid = some st)
    (hdup : ∃ x ∈ s.registrations, x.eventId = ev ∧ x.studentId = st.id) :
    register isEmail s body u1 u2 = (.error 409 (.text "Already registered"), s) := by
  have hcreate : Registration.create s
      { id := u2, eventId := ev, studentId := st.id, collegeId := cid,
        attendanceStatus := some "registered" } = .error .uniqueConstraintError := by
    have hany : s.registrations.any
        (fun x => decide (x.eventId = ev ∧ x.studentId = st.id)) = true := by
      rw [List.any_eq_true]
      obtain ⟨x, hx, h⟩ := hdup
      exact ⟨x, hx, by simpa using h⟩
    unfold Registration.create
    simp only
    rw [if_pos (by decide)]
    unfold Store.insertRegistration
    simp only
    split_ifs with h1
    · rfl
    · rfl
  unfold register
  rw [if_neg (by
    rw [not_not, hev, hroll, hcid]
    exact ⟨truthy_of_some hev0, truthy_of_some hroll0, truthy_of_some hcid0⟩)]
  simp only [hev, hroll, hcid, Option.getD_some, hfind, hpub, ne_eq, not_true_eq_false,
    if_false, hst, hcreate]
  rfl

/-- C7.  If `POST /register` answers `201`, a second `POST /register` with the same
`studentRoll`, `collegeId` and `eventId`, made in the state the first one left, answers
`409` "Already registered" and writes nothing, and that state holds exactly one
Registration for the event and student of the created Registration. -/
theorem register_twice (isEmail : String → Bool) (s s1 : Store) (body body2 : RegisterBody)
    (u1 u2 u3 u4 : String) (reg : Registration)
    (hfirst : register isEmail s body u1 u2 = (.json 201 reg, s1))
    (hsame : body2.eventId = body.eventId ∧ body2.studentRoll = body.studentRoll
      ∧ body2.collegeId = body.collegeId) :
    register isEmail s1 body2 u3 u4 = (.error 409 (.text "Already registered"), s1)
      ∧ s1.registrations.countP
          (fun r => decide (r.eventId = reg.eventId ∧ r.studentId = reg.studentId)) = 1 := by
  obtain ⟨ev, roll, cid, event, st, s0, hev, hev0, hroll, hroll0, hcid, hcid0, hfind, hpub,
    hstud, hreg, hins⟩ := register_created hfirst
  obtain ⟨hs1, hnodup, _, _⟩ := insertRegistration_ok hins
  have hregs0 : s0.registrations = s.registrations := by
    rcases hstud with ⟨_, rfl⟩ | ⟨_, _, rfl⟩ <;> rfl
  have hevents : s1.events = s.events := by
    rw [hs1]
    rcases hstud with ⟨_, rfl⟩ | ⟨_, _, rfl⟩ <;> rfl
  have hfind1 : Event.findByPk s1 ev = some event := by
    unfold Event.findByPk at hfind ⊢
    rw [hevents]; exact hfind
  have hst1 : Student.findOne s1 roll cid = some st := by
    unfold Student.findOne
    rw [hs1]
    rcases hstud with ⟨h, rfl⟩ | ⟨h, hstdef, rfl⟩
    · exact h
    · unfold Student.findOne at h
      show (s.students ++ [st]).find? _ = some st
      rw [List.find?_append, h]
      rw [hstdef]
      simp
  have hmem : reg ∈ s1.registrations := by
    rw [hs1]; simp
  constructor
  · apply register_conflict (hsame.1.trans hev) hev0 (hsame.2.1.trans hroll) hroll0
      (hsame.2.2.trans hcid) hcid0 hfind1 hpub hst1
    exact ⟨reg, hmem, by rw [hreg], by rw [hreg]⟩
  · rw [hs1]
    show (s0.registrations ++ [reg]).countP _ = 1
    rw [List.countP_append, List.countP_eq_zero.mpr]
    · simp
    · intro x hx
      simpa using hnodup x hx

theorem register_twice_witness :
    register (fun _ => true) demoStore newcomerBody "S9" "G9" = (.json 201 newcomerReg, newcomerStore)
      ∧ register (fun _ => true) newcomerStore newcomerBody "S10" "G10"
          = (.error 409 (.text "Already registered"), newcomerStore)
      ∧ newcomerStore.registrations.countP
          (fun r => decide (r.eventId = newcomerReg.eventId ∧ r.studentId = newcomerReg.studentId))
          = 1 :=
  ⟨by decide,
   register_twice (fun _ => true) demoStore newcomerStore newcomerBody newcomerBody
     "S9" "G9" "S10" "G10" newcomerReg (by decide) ⟨rfl, rfl, rfl⟩⟩

/-- C8 (counterexample).  In `demoStore` event E3 belongs to college C2.  A
`POST /register` and a `POST /feedback` that name E3 and `collegeId = C1` (where roll R1
is student S1) both answer `201` and store a row with `collegeId = C1` for event E3. -/
theorem write_college_counterexample :
    (Event.findByPk demoStore "E3").map (fun e => e.collegeId) = some "C2"
      ∧ (register (fun _ => true) demoStore crossBody "S9" "G9").1
          = .json 201 ⟨"G9", "E3", "S1", "C1", some "registered"⟩
      ∧ (⟨"G9", "E3", "S1", "C1", some "registered"⟩ : Registration)
          ∈ (register (fun _ => true) demoStore crossBody "S9" "G9").2.registrations
      ∧ (postFeedback demoStore crossFeedback "F9").1
          = .json 201 ⟨"F9", "E3", "S1", "C1", 4, none⟩
      ∧ (⟨"F9", "E3", "S1", "C1", 4, none⟩ : Feedback)
          ∈ (postFeedback demoStore crossFeedback "F9").2.feedbacks := by
  decide

theorem insertFeedback_ok {s s1 : Store} {f : Feedback} (h : s.insertFeedback f = .ok s1) :
    s1 = { s with feedbacks := s.feedbacks ++ [f] }
      ∧ (∃ e ∈ s.events, e.id = f.eventId) := by
  unfold Store.insertFeedback at h
  split_ifs at h with h1 h3
  cases h
  refine ⟨rfl, ?_⟩
  have := h3.1
  rw [List.any_eq_true] at this
  obtain ⟨e, he, hid⟩ := this
  exact ⟨e, he, by simpa using hid⟩

/-- What a `201` response of `POST /feedback` says about the request and the states. -/
theorem postFeedback_created {s s1 : Store} {body : FeedbackBody} {u : String} {fb : Feedback}
    (h : postFeedback s body u = (.json 201 fb, s1)) :
    ∃ (eventId studentRoll collegeId : String) (rating : Int) (st : Student),
      body.eventId = some eventId ∧ body.studentRoll = some studentRoll
      ∧ body.collegeId = some collegeId ∧ body.rating = some rating
      ∧ Student.findOne s studentRoll collegeId = some st
      ∧ fb = { id := u, eventId := eventId, studentId := st.id, collegeId := collegeId,
               rating := rating, comments := body.comments }
      ∧ 1 ≤ rating ∧ rating ≤ 5
      ∧ s.insertFeedback fb = .ok s1 := by
  unfold postFeedback at h
  split at h
  · cases h
  · next rating hrating =>
    split_ifs at h with hreq
    · obtain ⟨ev, hev, _⟩ := truthy_some hreq.1
      obtain ⟨roll, hroll, _⟩ := truthy_some hreq.2.1
      obtain ⟨cid, hcid, _⟩ := truthy_some hreq.2.2
      simp only [hev, hroll, hcid, Option.getD_some] at h
      split at h
      · cases h
      · next st hst =>
        split at h
        · cases h
        · next s2 hcreate =>
          simp only [Prod.mk.injEq, Reply.json.injEq, true_and] at h
          obtain ⟨hfb, hs⟩ := h
          subst hs
          unfold Feedback.create at hcreate
          split_ifs at hcreate with hr
          refine ⟨ev, roll, cid, rating, st, hev, hroll, hcid, hrating, hst, hfb.symm,
            hr.1, hr.2, ?_⟩
          rw [← hfb]; exact hcreate
    · cases h

theorem findOne_some {s : Store} {roll cid : String} {st : Student}
    (h : Student.findOne s roll cid = some st) :
    st ∈ s.students ∧ st.studentRoll = roll ∧ st.collegeId = cid := by
  unfold Student.findOne at h
  have h1 := List.mem_of_find?_eq_some h
  have h2 := List.find?_some h
  simp only [decide_eq_true_eq] at h2
  exact ⟨h1, h2.1, h2.2⟩

theorem findByPk_some {s : Store} {id : String} {e : Event}
    (h : Event.findByPk s id = some e) : e ∈ s.events ∧ e.id = id := by
  unfold Event.findByPk at h
  have h1 := List.mem_of_find?_eq_some h
  have h2 := List.find?_some h
  simp only [decide_eq_true_eq] at h2
  exact ⟨h1, h2⟩

/-- C8 (amended).  A Registration created by `POST /register` is stored with the
`collegeId` of the request, names a stored Student with that same `collegeId` and the
requested roll, and names a stored, published Event; a Feedback created by
`POST /feedback` is stored with the `collegeId` of the request and names a stored
Student with that same `collegeId` and a stored Event.  (The `collegeId` of the Event
is not compared with that of the record.) -/
theorem write_references (isEmail : String → Bool) (s : Store) (rbody : RegisterBody)
    (fbody : FeedbackBody) (u1 u2 u3 : String) :
    (∀ (reg : Registration) (s1 : Store),
        register isEmail s rbody u1 u2 = (.json 201 reg, s1) →
          reg ∈ s1.registrations ∧ some reg.collegeId = rbody.collegeId
            ∧ (∃ st ∈ s1.students, st.id = reg.studentId ∧ st.collegeId = reg.collegeId
                ∧ some st.studentRoll = rbody.studentRoll)
            ∧ ∃ ev ∈ s1.events, ev.id = reg.eventId ∧ ev.state = some "published")
      ∧ (∀ (fb : Feedback) (s1 : Store),
        postFeedback s fbody u3 = (.json 201 fb, s1) →
          fb ∈ s1.feedbacks ∧ some fb.collegeId = fbody.collegeId
            ∧ (∃ st ∈ s1.students, st.id = fb.studentId ∧ st.collegeId = fb.collegeId
                ∧ some st.studentRoll = fbody.studentRoll)
            ∧ ∃ ev ∈ s1.events, ev.id = fb.eventId) := by
  constructor
  · intro reg s1 h
    obtain ⟨ev, roll, cid, event, st, s0, hev, _, hroll, _, hcid, _, hfind, hpub,
      hstud, hreg, hins⟩ := register_created h
    obtain ⟨hs1, _, _, _⟩ := insertRegistration_ok hins
    obtain ⟨hevmem, hevid⟩ := findByPk_some hfind
    have hstmem : st ∈ s0.students ∧ st.studentRoll = roll ∧ st.collegeId = cid := by
      rcases hstud with ⟨hf, rfl⟩ | ⟨_, hstdef, rfl⟩
      · exact findOne_some hf
      · refine ⟨by simp, ?_, ?_⟩ <;> rw [hstdef]
    have hev0 : s0.events = s.events := by
      rcases hstud with ⟨_, rfl⟩ | ⟨_, _, rfl⟩ <;> rfl
    subst hs1
    refine ⟨by simp, by rw [hreg, hcid], ⟨st, hstmem.1, by rw [hreg], ?_, ?_⟩,
      ⟨event, ?_, by rw [hreg]; exact hevid, hpub⟩⟩
    · rw [hreg]; exact hstmem.2.2
    · rw [hroll, hstmem.2.1]
    · show event ∈ s0.events
      rw [hev0]; exact hevmem
  · intro fb s1 h
    obtain ⟨ev, roll, cid, rating, st, hev, hroll, hcid, _, hst, hfb, _, _, hins⟩ :=
      postFeedback_created h
    obtain ⟨hs1, e, he, heid⟩ := insertFeedback_ok hins
    obtain ⟨hstmem, hstroll, hstcid⟩ := findOne_some hst
    subst hs1
    refine ⟨by simp, by rw [hfb, hcid], ⟨st, hstmem, by rw [hfb], ?_, ?_⟩, ⟨e, he, heid⟩⟩
    · rw [hfb]; exact hstcid
    · rw [hroll, hstroll]

theorem write_references_witness :
    register (fun _ => true) demoStore newcomerBody "S9" "G9" = (.json 201 newcomerReg, newcomerStore)
      ∧ (∃ st ∈ newcomerStore.students, st.id = newcomerReg.studentId
          ∧ st.collegeId = newcomerReg.collegeId
          ∧ some st.studentRoll = newcomerBody.studentRoll) :=
  ⟨by decide,
   ((write_references (fun _ => true) demoStore newcomerBody crossFeedback "S9" "G9" "F9").1
     newcomerReg newcomerStore (by decide)).2.2.1⟩

/-- C9.  When the event named by the request is absent, or its state is not
`"published"`, `POST /register` answers `400` and the store is unchanged: no Student and
no Registration is created. -/
theorem register_rejects (isEmail : String → Bool) (s : Store) (body : RegisterBody)
    (u1 u2 : String)
    (hevent : ∀ (eventId : String) (event : Event), body.eventId = some eventId →
      Event.findByPk s eventId = some event → event.state ≠ some "published") :
    (register isEmail s body u1 u2).1.status = 400
      ∧ (register isEmail s body u1 u2).2 = s := by
  unfold register
  split_ifs with hreq
  · obtain ⟨ev, hev, _⟩ := truthy_some hreq.1
    simp only [hev, Option.getD_some]
    split
    · exact ⟨rfl, rfl⟩
    · next event hfind =>
      rw [if_pos (hevent ev event hev hfind)]
      exact ⟨rfl, rfl⟩
  · exact ⟨rfl, rfl⟩

theorem register_rejects_witness :
    (∀ (eventId : String) (event : Event), draftBody.eventId = some eventId →
        Event.findByPk demoStore eventId = some event → event.state ≠ some "published")
      ∧ (register (fun _ => true) demoStore draftBody "S9" "G9").1.status = 400
      ∧ (register (fun _ => true) demoStore draftBody "S9" "G9").2 = demoStore :=
  have h : ∀ (eventId : String) (event : Event), draftBody.eventId = some eventId →
      Event.findByPk demoStore eventId = some event → event.state ≠ some "published" := by
    intro eventId event h1 h2
    have : eventId = "E2" := by
      simp only [draftBody, Option.some.injEq] at h1
      exact h1.symm
    subst this
    have : event = ⟨"E2", "C1", "Talk", some "draft"⟩ := by
      have h3 : Event.findByPk demoStore "E2" = some ⟨"E2", "C1", "Talk", some "draft"⟩ := by
        decide
      rw [h3] at h2
      exact (Option.some.inj h2).symm
    rw [this]
    decide
  ⟨h, register_rejects (fun _ => true) demoStore draftBody "S9" "G9" h⟩

/-! ## Reports and missing events or students -/

theorem mem_groupKeys {α : Type} (key : α → String) {rows : List α} {a : α}
    (h : a ∈ rows) : key a ∈ groupKeys key rows := by
  unfold groupKeys
  rw [List.mem_dedup]
  exact List.mem_map_of_mem _ h

theorem eventPopularity_event {s : Store} {c : Option String} {row : PopularityRow}
    (h : row ∈ eventPopularity s c) : ∃ ev ∈ s.events, ev.id = row.eventId := by
  unfold eventPopularity at h
  simp only at h
  rw [(List.perm_insertionSort _ _).mem_iff] at h
  obtain ⟨k, hk, rfl⟩ := List.mem_map.mp h
  unfold groupKeys at hk
  rw [List.mem_dedup] at hk
  obtain ⟨q, hq, rfl⟩ := List.mem_map.mp hk
  have hj := (List.mem_filter.mp hq).1
  unfold joinEvents at hj
  rw [List.mem_flatMap] at hj
  obtain ⟨r, _, hr⟩ := hj
  obtain ⟨e, he, rfl⟩ := List.mem_map.mp hr
  obtain ⟨hmem, hid⟩ := List.mem_filter.mp he
  exact ⟨e, hmem, (of_decide_eq_true hid).symm⟩

/-! ## Seed script: the registrations of S005 -/

set_option maxRecDepth 100000 in
theorem seed_S005_closed :
    (((regsWithIds (fun _ => "") (seedRegs (seedStudents "C001"))).take 24).filter
        (fun r => decide (r.studentId = "S005"))).map
          (fun r => (r.eventId, r.attendanceStatus))
      = [("E001", some "late"), ("E002", some "registered")] := by
  decide!

set_option maxRecDepth 100000 in
theorem seed_pushes_closed :
    ((regsWithIds (fun _ => "") (seedRegs (seedStudents "C001"))).drop 24).map
        (fun r => (r.eventId, r.studentId, r.attendanceStatus))
      = [("E001", "S005", some "present"), ("E002", "S005", some "present")] := by
  decide!

set_option maxRecDepth 100000 in
theorem seedBase_S005 :
    (Student.findByPk seedBase "S005").bind (fun st => st.name) = some "Kavana" := by
  decide!

/-- C11 (the code at the failing input).  When the ids drawn from `genUUID` for the 26
elements of `regs` are pairwise different, student S005 is Kavana, the last two
elements of `regs` are the rows pushed with status `"present"` for S005 and events
E001 and E002, and the store left by the seed script holds exactly two Registrations
of S005: one for E001 with status `"late"` and one for E002 with status
`"registered"`.  Neither has status `"present"`. -/
theorem seed_S005_statuses (uuid : Nat → String) (hnd : ((List.range 26).map uuid).Nodup) :
    (Student.findByPk (seed uuid) "S005").bind (fun st => st.name) = some "Kavana"
      ∧ ((regsWithIds uuid (seedRegs (seedStudents "C001"))).drop 24).map
          (fun r => (r.eventId, r.studentId, r.attendanceStatus))
        = [("E001", "S005", some "present"), ("E002", "S005", some "present")]
      ∧ ((seed uuid).registrations.filter (fun r => decide (r.studentId = "S005"))).map
          (fun r => (r.eventId, r.attendanceStatus))
        = [("E001", some "late"), ("E002", some "registered")] := by
  obtain ⟨hregs, _, hst⟩ := seed_tables uuid hnd
  refine ⟨?_, ?_, ?_⟩
  · unfold Student.findByPk
    rw [hst]
    exact seedBase_S005
  · rw [← seed_pushes_closed, ← regsWithIds_eraseId uuid, ← List.map_drop, List.map_map]
    rfl
  · rw [← seed_S005_closed, ← regsWithIds_eraseId uuid, ← List.map_take, ← hregs,
      List.filter_map, List.map_map]
    rfl

set_option maxRecDepth 100000 in
theorem seed_S005_statuses_witness :
    ((List.range 26).map sampleUuid).Nodup
      ∧ ((seed sampleUuid).registrations.filter (fun r => decide (r.studentId = "S005"))).map
          (fun r => (r.eventId, r.attendanceStatus))
        = [("E001", some "late"), ("E002", some "registered")] :=
  ⟨by decide!, (seed_S005_statuses sampleUuid (by decide!)).2.2⟩

/-! ## Bounds on report rows -/

theorem isDouble_10000 : IsDouble 10000 := ⟨10000, 0, by norm_num, by norm_num⟩

theorem roundDouble_nonneg {q : ℚ} (hq : 0 ≤ q) : 0 ≤ roundDouble q := by
  rcases hq.lt_or_eq with h | h
  · exact (roundDouble_pos h).le
  · rw [← h, roundDouble_zero]

theorem roundDouble_le_of_nonneg {x a : ℚ} (hx : 0 ≤ x) (ha0 : 0 ≤ a) (hxa : x ≤ a)
    (ha : IsDouble a) : roundDouble x ≤ a := by
  rcases hx.lt_or_eq with h | h
  · exact roundDouble_le_of_le h hxa ha
  · rw [← h, roundDouble_zero]; exact ha0

/-- The percentage computed by the code lies in `[0, 100]` when `present ≤ total`. -/
theorem attendancePercentOf_bounds {p t : ℕ} (hpt : p ≤ t) :
    0 ≤ attendancePercentOf p t ∧ attendancePercentOf p t ≤ 100 := by
  unfold attendancePercentOf
  split_ifs with ht
  · have ht' : (0:ℚ) < t := by
      have : 0 < t := Nat.pos_of_ne_zero ht
      exact_mod_cast this
    have hp' : (0:ℚ) ≤ p := by exact_mod_cast Nat.zero_le p
    have hq0 : (0:ℚ) ≤ (p : ℚ) / (t : ℚ) := div_nonneg hp' ht'.le
    have hq1 : (p : ℚ) / (t : ℚ) ≤ 1 := by
      rw [div_le_one ht']; exact_mod_cast hpt
    have y1lo := roundDouble_nonneg hq0
    have y1hi := roundDouble_le_of_nonneg hq0 (by norm_num) hq1 isDouble_one
    have y2lo := roundDouble_nonneg
      (q := roundDouble ((p : ℚ) / (t : ℚ)) * 10000) (by positivity)
    have y2hi := roundDouble_le_of_nonneg
      (x := roundDouble ((p : ℚ) / (t : ℚ)) * 10000) (a := 10000) (by positivity)
      (by norm_num) (by linarith) isDouble_10000
    have hk : ∀ y : ℚ, 0 ≤ y → y ≤ 10000 →
        (0:ℚ) ≤ (jsRound y : ℚ) ∧ (jsRound y : ℚ) ≤ 10000 := by
      intro y h1 h2
      have klo : (0 : ℤ) ≤ jsRound y := by
        unfold jsRound
        rw [Int.le_floor]; push_cast; linarith
      have khi : jsRound y ≤ 10000 := by
        unfold jsRound
        have : ⌊y + 1 / 2⌋ < 10001 := by
          rw [Int.floor_lt]; push_cast; linarith
        omega
      exact ⟨by exact_mod_cast klo, by exact_mod_cast khi⟩
    obtain ⟨klo, khi⟩ := hk _ y2lo y2hi
    constructor
    · exact roundDouble_nonneg (div_nonneg klo (by norm_num))
    · apply roundDouble_le_of_nonneg (div_nonneg klo (by norm_num)) (by norm_num) _
        isDouble_100
      rw [div_le_iff₀ (by norm_num)]; linarith
  · exact ⟨le_refl _, by norm_num⟩

/-- C12.  For every state and every filter, each row of attendance-percent has
`presentCount ≤ totalRegistered`, `totalRegistered ≥ 1` and
`0 ≤ attendancePercent ≤ 100`, and each row of student-participation has
`eventsAttended ≤ eventsRegistered` (counts are natural numbers, so they are `≥ 0`). -/
theorem report_row_bounds (s : Store) (c e : Option String) :
    (∀ row ∈ attendancePercent s c e,
        0 ≤ row.presentCount ∧ row.presentCount ≤ row.totalRegistered
          ∧ 1 ≤ row.totalRegistered
          ∧ 0 ≤ row.attendancePercent ∧ row.attendancePercent ≤ 100)
      ∧ (∀ p ∈ studentParticipation s c,
        0 ≤ p.eventsAttended ∧ p.eventsAttended ≤ p.eventsRegistered) := by
  constructor
  · intro row hrow
    obtain ⟨hpos, hle⟩ := attendancePercent_pos_total hrow
    obtain ⟨_, _, _, _, hval⟩ := attendancePercent_mem hrow
    have hb := attendancePercentOf_bounds hle
    rw [← hval] at hb
    exact ⟨Nat.zero_le _, hle, hpos, hb.1, hb.2⟩
  · intro p hp
    obtain ⟨_, hreg, hatt, _, _⟩ := studentParticipation_mem.mp hp
    rw [hreg, hatt]
    exact ⟨Nat.zero_le _, List.countP_le_length _⟩

theorem report_row_bounds_witness :
    (0 ≤ attendancePercentOf 1 3 ∧ attendancePercentOf 1 3 ≤ 100)
      ∧ ∀ p ∈ studentParticipation demoStore none, p.eventsAttended ≤ p.eventsRegistered :=
  ⟨((report_row_bounds demoStore none none).1
      ⟨"E1", 3, 1, some "Quiz", attendancePercentOf 1 3⟩
      (by rw [demoStore_attendance]; exact List.mem_cons_self _ _)).2.2.2,
   fun p hp => ((report_row_bounds demoStore none none).2 p hp).2⟩

/-! ## Reports whose lookups read a later state -/

theorem enum_map_comp_snd {α β : Type} (l : List α) (f : α → β) :
    l.enum.map (fun q => f q.2) = l.map f := by
  rw [show (fun q : ℕ × α => f q.2) = f ∘ Prod.snd from rfl, ← List.map_map,
    List.enum_map_snd]

theorem getElem?_enum_map {α β : Type} {l : List α} {f : ℕ × α → β} {i : ℕ} {x : β}
    (h : (l.enum.map f)[i]? = some x) : ∃ k, l[i]? = some k ∧ x = f (i, k) := by
  rw [List.getElem?_map, List.getElem?_enum] at h
  cases hk : l[i]? with
  | none => rw [hk] at h; simp at h
  | some k => rw [hk] at h; simp at h; exact ⟨k, rfl, h.symm⟩

/-- With no write in between, the two-state model is the report itself. -/
theorem attendancePercentAt_same (s : Store) (c e : Option String) :
    attendancePercentAt s (fun _ => s) c e = attendancePercent s c e := by
  unfold attendancePercentAt attendancePercent
  dsimp only
  refine Eq.trans ?_ (enum_map_comp_snd _ _)
  rfl

theorem avgFeedbackAt_same (s : Store) (c : Option String) :
    avgFeedbackAt s (fun _ => s) c = avgFeedback s c := by
  unfold avgFeedbackAt avgFeedback
  dsimp only
  refine Eq.trans ?_ (enum_map_comp_snd _ _)
  rfl

theorem studentParticipationAt_same (s : Store) (c : Option String) :
    studentParticipationAt s (fun _ => s) c = studentParticipation s c := by
  unfold studentParticipationAt studentParticipation
  dsimp only
  refine Eq.trans ?_ (enum_map_comp_snd _ _)
  rfl

theorem topActiveStudentsAt_same (s : Store) (c : Option String) :
    topActiveStudentsAt s (fun _ => s) c = topActiveStudents s c := by
  unfold topActiveStudentsAt topActiveStudents
  dsimp only
  refine Eq.trans ?_ (enum_map_comp_snd _ _)
  rfl

theorem eventPopularity_row {s : Store} {c : Option String} {row : PopularityRow}
    (h : row ∈ eventPopularity s c) :
    ∃ ev ∈ s.events, ev.id = row.eventId ∧ row.title = some ev.title := by
  unfold eventPopularity at h
  simp only at h
  rw [(List.perm_insertionSort _ _).mem_iff] at h
  obtain ⟨k, hk, rfl⟩ := List.mem_map.mp h
  unfold groupKeys at hk
  rw [List.mem_dedup] at hk
  obtain ⟨q, hq, hqk⟩ := List.mem_map.mp hk
  have hq' : q ∈ ((joinEvents s).filter
      (fun p => !truthy c || decide (some p.1.collegeId = c))).filter
        (fun p => decide (p.1.eventId = k)) :=
    List.mem_filter.mpr ⟨hq, by simpa using hqk⟩
  cases hg : (((joinEvents s).filter
      (fun p => !truthy c || decide (some p.1.collegeId = c))).filter
        (fun p => decide (p.1.eventId = k))) with
  | nil => rw [hg] at hq'; cases hq'
  | cons p rest =>
    have hp : p ∈ ((joinEvents s).filter
        (fun p => !truthy c || decide (some p.1.collegeId = c))).filter
          (fun p => decide (p.1.eventId = k)) := by
      rw [hg]; exact List.mem_cons_self _ _
    obtain ⟨hp1, hpk⟩ := List.mem_filter.mp hp
    have hj := (List.mem_filter.mp hp1).1
    unfold joinEvents at hj
    rw [List.mem_flatMap] at hj
    obtain ⟨r, _, hr⟩ := hj
    obtain ⟨ev, hev, rfl⟩ := List.mem_map.mp hr
    obtain ⟨hmem, hid⟩ := List.mem_filter.mp hev
    refine ⟨ev, hmem, ?_, ?_⟩
    · have h1 : r.eventId = ev.id := of_decide_eq_true hid
      have h2 : r.eventId = k := of_decide_eq_true hpk
      exact h1.symm.trans h2
    · simp only [hg, List.head?_cons, Option.map_some']

theorem eventPopularity_complete {s : Store} {c : Option String} {r : Registration}
    (hr : r ∈ s.registrations) (hf : collegeFilter c r = true)
    (hev : ∃ ev ∈ s.events, ev.id = r.eventId) :
    ∃ row ∈ eventPopularity s c, row.eventId = r.eventId := by
  obtain ⟨ev, hmem, hid⟩ := hev
  have hj : (r, ev) ∈ (joinEvents s).filter
      (fun p => !truthy c || decide (some p.1.collegeId = c)) := by
    apply List.mem_filter.mpr
    refine ⟨?_, hf⟩
    unfold joinEvents
    rw [List.mem_flatMap]
    exact ⟨r, hr, List.mem_map.mpr ⟨ev, List.mem_filter.mpr ⟨hmem, by simpa using hid.symm⟩, rfl⟩⟩
  have hk := mem_groupKeys (fun p : Registration × Event => p.1.eventId) hj
  unfold eventPopularity
  simp only
  refine ⟨_, (List.perm_insertionSort _ _).mem_iff.mpr
    (List.mem_map.mpr ⟨r.eventId, hk, rfl⟩), rfl⟩

/-- C10.  The aggregate query of a report reads a state `s`; the lookup made for its
`i`-th row reads a state `later i`, which may differ from `s` when another request
writes in between (with the foreign keys in force, that is the only way a referenced
event or student can be missing).  For attendance-percent, avg-feedback,
student-participation and top-active-students, the rows returned are exactly the rows
of the query (same keys and aggregates, same order, none dropped, none failing), and a
row whose event (or student) is missing at its lookup has `title` (or `studentRoll` and
`name`) null; in the first three of these reports every group of rows passing the filter
has its row.
Event-popularity takes the title from the query itself: every group whose event is
stored has a row, and every row carries the title of a stored event, so a missing
event cannot occur in it. -/
theorem reports_missing_entity (s : Store) (later : Nat → Store) (c e : Option String) :
    ((attendancePercentAt s later c e).map
          (fun r => (r.eventId, r.totalRegistered, r.presentCount, r.attendancePercent))
        = (attendancePercent s c e).map
          (fun r => (r.eventId, r.totalRegistered, r.presentCount, r.attendancePercent))
      ∧ (∀ r ∈ s.registrations, attendanceFilter c e r = true →
          ∃ row ∈ attendancePercentAt s later c e, row.eventId = r.eventId)
      ∧ ∀ (i : Nat) (row : AttendanceRow), (attendancePercentAt s later c e)[i]? = some row →
          Event.findByPk (later i) row.eventId = none → row.title = none)
    ∧ ((avgFeedbackAt s later c).map (fun r => (r.eventId, r.avgRating, r.feedbackCount))
        = (avgFeedback s c).map (fun r => (r.eventId, r.avgRating, r.feedbackCount))
      ∧ (∀ f ∈ s.feedbacks, (!truthy c || decide (some f.collegeId = c)) = true →
          ∃ row ∈ avgFeedbackAt s later c, row.eventId = f.eventId)
      ∧ ∀ (i : Nat) (row : FeedbackRow), (avgFeedbackAt s later c)[i]? = some row →
          Event.findByPk (later i) row.eventId = none → row.title = none)
    ∧ ((studentParticipationAt s later c).map
          (fun r => (r.studentId, r.eventsRegistered, r.eventsAttended))
        = (studentParticipation s c).map
          (fun r => (r.studentId, r.eventsRegistered, r.eventsAttended))
      ∧ (∀ r ∈ s.registrations, collegeFilter c r = true →
          ∃ row ∈ studentParticipationAt s later c, row.studentId = r.studentId)
      ∧ ∀ (i : Nat) (row : ParticipationRow),
          (studentParticipationAt s later c)[i]? = some row →
          Student.findByPk (later i) row.studentId = none →
            row.studentRoll = none ∧ row.name = none)
    ∧ ((topActiveStudentsAt s later c).map (fun r => (r.studentId, r.attended))
        = (topActiveStudents s c).map (fun r => (r.studentId, r.attended))
      ∧ ∀ (i : Nat) (row : TopRow), (topActiveStudentsAt s later c)[i]? = some row →
          Student.findByPk (later i) row.studentId = none →
            row.studentRoll = none ∧ row.name = none)
    ∧ ((∀ r ∈ s.registrations, collegeFilter c r = true →
          (∃ ev ∈ s.events, ev.id = r.eventId) →
            ∃ row ∈ eventPopularity s c, row.eventId = r.eventId)
      ∧ ∀ row ∈ eventPopularity s c,
          ∃ ev ∈ s.events, ev.id = row.eventId ∧ row.title = some ev.title) := by
  refine ⟨⟨?_, ?_, ?_⟩, ⟨?_, ?_, ?_⟩, ⟨?_, ?_, ?_⟩, ⟨?_, ?_⟩, ?_, ?_⟩
  · unfold attendancePercentAt attendancePercent
    simp only [List.map_map]
    refine Eq.trans ?_ (enum_map_comp_snd _ _)
    rfl
  · intro r hr hf
    have hk := mem_groupKeys (fun r : Registration => r.eventId)
      (List.mem_filter.mpr ⟨hr, hf⟩)
    obtain ⟨i, hi, hget⟩ := List.mem_iff_getElem.mp hk
    unfold attendancePercentAt
    simp only [List.mem_map]
    exact ⟨_, ⟨(i, r.eventId), by rw [List.mem_iff_getElem?]; exact ⟨i, by
      rw [List.getElem?_enum, List.getElem?_eq_getElem hi, hget]; rfl⟩, rfl⟩, rfl⟩
  · intro i row hrow hnone
    unfold attendancePercentAt at hrow
    obtain ⟨k, _, rfl⟩ := getElem?_enum_map hrow
    simp only at hnone ⊢
    rw [hnone]; rfl
  · unfold avgFeedbackAt avgFeedback
    simp only [List.map_map]
    refine Eq.trans ?_ (enum_map_comp_snd _ _)
    rfl
  · intro f hf hflt
    have hk := mem_groupKeys (fun f : Feedback => f.eventId)
      (List.mem_filter.mpr ⟨hf, hflt⟩ :
        f ∈ s.feedbacks.filter (fun f => !truthy c || decide (some f.collegeId = c)))
    obtain ⟨i, hi, hget⟩ := List.mem_iff_getElem.mp hk
    unfold avgFeedbackAt
    simp only [List.mem_map]
    exact ⟨_, ⟨(i, f.eventId), by rw [List.mem_iff_getElem?]; exact ⟨i, by
      rw [List.getElem?_enum, List.getElem?_eq_getElem hi, hget]; rfl⟩, rfl⟩, rfl⟩
  · intro i row hrow hnone
    unfold avgFeedbackAt at hrow
    obtain ⟨k, _, rfl⟩ := getElem?_enum_map hrow
    simp only at hnone ⊢
    rw [hnone]; rfl
  · unfold studentParticipationAt studentParticipation
    simp only [List.map_map]
    refine Eq.trans ?_ (enum_map_comp_snd _ _)
    rfl
  · intro r hr hf
    have hk := mem_groupKeys (fun r : Registration => r.studentId)
      (List.mem_filter.mpr ⟨hr, hf⟩)
    have hrow : ∃ p ∈ studentParticipation s c, p.studentId = r.studentId :=
      ⟨⟨r.studentId,
          ((s.registrations.filter (collegeFilter c)).filter
            (fun x => decide (x.studentId = r.studentId))).length,
          ((s.registrations.filter (collegeFilter c)).filter
            (fun x => decide (x.studentId = r.studentId))).countP
              (fun x => decide (x.attendanceStatus = some "present")),
          (Student.findByPk s r.studentId).map (fun st => st.studentRoll),
          (Student.findByPk s r.studentId).bind (fun st => st.name)⟩,
        studentParticipation_mem.mpr ⟨hk, rfl, rfl, rfl, rfl⟩, rfl⟩
    obtain ⟨p, hp, hpid⟩ := hrow
    have hproj : (p.studentId, p.eventsRegistered, p.eventsAttended)
        ∈ (studentParticipationAt s later c).map
          (fun r => (r.studentId, r.eventsRegistered, r.eventsAttended)) := by
      have heq : (studentParticipationAt s later c).map
          (fun r => (r.studentId, r.eventsRegistered, r.eventsAttended))
          = (studentParticipation s c).map
            (fun r => (r.studentId, r.eventsRegistered, r.eventsAttended)) := by
        unfold studentParticipationAt studentParticipation
        simp only [List.map_map]
        refine Eq.trans ?_ (enum_map_comp_snd _ _)
        rfl
      rw [heq]
      exact List.mem_map.mpr ⟨p, hp, rfl⟩
    obtain ⟨row, hrowmem, hrowproj⟩ := List.mem_map.mp hproj
    refine ⟨row, hrowmem, ?_⟩
    have := congrArg Prod.fst hrowproj
    simp only at this
    rw [this, hpid]
  · intro i row hrow hnone
    unfold studentParticipationAt at hrow
    obtain ⟨k, _, rfl⟩ := getElem?_enum_map hrow
    simp only at hnone ⊢
    rw [hnone]; exact ⟨rfl, rfl⟩
  · unfold topActiveStudentsAt topActiveStudents
    simp only [List.map_map]
    refine Eq.trans ?_ (enum_map_comp_snd _ _)
    rfl
  · intro i row hrow hnone
    unfold topActiveStudentsAt at hrow
    obtain ⟨k, _, rfl⟩ := getElem?_enum_map hrow
    simp only at hnone ⊢
    rw [hnone]; exact ⟨rfl, rfl⟩
  · intro r hr hf hev
    exact eventPopularity_complete hr hf hev
  · intro row hrow
    exact eventPopularity_row hrow

theorem reports_missing_entity_witness :
    demoStore.Valid ∧ demoAfterDelete.Valid
      ∧ (deleteEvent demoStore "E1").1 = .json 200 "Event deleted successfully"
      ∧ (attendancePercentAt demoStore (fun _ => demoAfterDelete) none none).map
          (fun r => (r.eventId, r.totalRegistered, r.presentCount, r.title))
        = [("E1", 3, 1, none), ("E3", 1, 1, some "Expo")]
      ∧ (∀ (i : Nat) (row : AttendanceRow),
          (attendancePercentAt demoStore (fun _ => demoAfterDelete) none none)[i]? = some row →
            row.eventId = "E1" → row.title = none)
      ∧ (∀ (i : Nat) (row : ParticipationRow),
          (studentParticipationAt demoStore (fun _ => Store.empty) none)[i]? = some row →
            row.studentRoll = none ∧ row.name = none) :=
  ⟨by unfold Store.Valid; decide, by unfold Store.Valid; decide, by decide, by decide,
   fun i row h hE =>
     (reports_missing_entity demoStore (fun _ => demoAfterDelete) none none).1.2.2 i row h
       (by rw [hE]; decide),
   fun i row h =>
     (reports_missing_entity demoStore (fun _ => Store.empty) none none).2.2.1.2.2 i row h
       rfl⟩

end CampusDrive
